import Mathlib

/-!
dlconv: dive-log CSV to Markdown.

A shallow embedding of `dlconv.go`.  The program reads every CSV row, scans
the rows for 23-row dive blocks, decodes one `DiveData` per block, reverses
the record slice in place and executes a fixed text template over it.

Modelling choices:

* a Go slice is a `List`; an index expression `xs[k]` is `xs[k]?`, and `none`
  stands for the run-time panic "index out of range";
* Go `int` cursors are `Nat` where the code can only count upwards from zero
  and `Int` where the code can go below zero (the right pointer of the
  reversal loop starts at `len - 1`);
* cursor arithmetic is exact: a slice has far fewer than `2^63 - 23` elements,
  so `i + 23` and `len - 1` never wrap around a 64-bit `int`;
* a `for` loop is the iteration of its body under a fuel bound; running out
  of fuel is an outcome of its own, distinct from a panic;
* `text/template` execution of the constant template is the string the
  engine writes: template text verbatim, every action replaced by the field
  it prints.
-/

namespace Dlconv

/-! ## Data model -/

/-- The Go struct `DiveData`: one dive, every field an uninterpreted string. -/
structure DiveData where
  Cardinal : String
  Site : String
  Date : String
  Time : String
  Duration : String
  MaxDepth : String
  AvgDepth : String
  TankPressureStart : String
  TankPressureEnd : String
  DecompressionDive : String
  Gas : String
  O2 : String
  CNS : String
  Altitude : String
  From : String
  Operator : String
  SuitType : String
  SuitThickness : String
  Weights : String
  TankType : String
  TankVolume : String
  Computer : String
  DecoAlgPFact : String
  Weather : String
  AirTemp : String
  WaterType : String
  WaterMinTemp : String
  WaterVisibility : String
  DriftDive : String
  deriving DecidableEq, Repr

/-- The Go struct `TemplateData`: what the template is executed against. -/
structure TemplateData where
  Title : String
  ModifiedTimeUTC : String
  Dives : List DiveData
  deriving DecidableEq, Repr

/-- How a run of a piece of the program ends: with a value, with a Go panic,
or (for the model only) with the loop fuel used up. -/
inductive Outcome (α : Type) where
  | done (a : α)
  | panicked
  | outOfFuel
  deriving DecidableEq, Repr

/-- Sequencing of outcomes: a panic or a fuel shortage aborts the rest. -/
def Outcome.andThen {α β : Type} (o : Outcome α) (f : α → Outcome β) : Outcome β :=
  match o with
  | .done a => f a
  | .panicked => .panicked
  | .outOfFuel => .outOfFuel

/-- Apply a function to the value of a finished run. -/
def Outcome.map {α β : Type} (f : α → β) (o : Outcome α) : Outcome β :=
  match o with
  | .done a => .done (f a)
  | .panicked => .panicked
  | .outOfFuel => .outOfFuel

/-! ## Record extraction (`main`, the scan loop) -/

/-- The index expression `records[r][c]`; `none` is the index-out-of-range panic. -/
def cell (records : List (List String)) (r c : Nat) : Option String :=
  match records[r]? with
  | none => none
  | some row => row[c]?

/-- The loop condition of the block,
`records[i][4] == "Site" && records[i][9] == "Date"`.  The conjunction
short-circuits: cell 9 is read only when cell 4 is `"Site"`. -/
def isSentinel (records : List (List String)) (i : Nat) : Option Bool :=
  match cell records i 4 with
  | none => none
  | some a =>
    if a = "Site" then
      match cell records i 9 with
      | none => none
      | some b => some (decide (b = "Date"))
    else some false

/-- The composite literal `DiveData{...}` built at cursor `i`: every field is
the cell at a fixed coordinate, read in the order of the source. -/
def decode (records : List (List String)) (i : Nat) : Option DiveData :=
  match cell records i 1 with
  | none => none
  | some cardinal =>
  match cell records (i + 1) 4 with
  | none => none
  | some site =>
  match cell records (i + 1) 9 with
  | none => none
  | some date =>
  match cell records (i + 1) 12 with
  | none => none
  | some time =>
  match cell records (i + 4) 4 with
  | none => none
  | some duration =>
  match cell records (i + 4) 11 with
  | none => none
  | some suitType =>
  match cell records (i + 5) 4 with
  | none => none
  | some maxDepth =>
  match cell records (i + 5) 11 with
  | none => none
  | some suitThickness =>
  match cell records (i + 6) 4 with
  | none => none
  | some avgDepth =>
  match cell records (i + 6) 11 with
  | none => none
  | some weights =>
  match cell records (i + 7) 4 with
  | none => none
  | some tankPressureStart =>
  match cell records (i + 7) 11 with
  | none => none
  | some tankType =>
  match cell records (i + 8) 4 with
  | none => none
  | some tankPressureEnd =>
  match cell records (i + 8) 11 with
  | none => none
  | some tankVolume =>
  match cell records (i + 9) 4 with
  | none => none
  | some decompressionDive =>
  match cell records (i + 9) 11 with
  | none => none
  | some computer =>
  match cell records (i + 10) 4 with
  | none => none
  | some gas =>
  match cell records (i + 10) 11 with
  | none => none
  | some decoAlgPFact =>
  match cell records (i + 11) 4 with
  | none => none
  | some o2 =>
  match cell records (i + 12) 4 with
  | none => none
  | some cns =>
  match cell records (i + 13) 4 with
  | none => none
  | some altitude =>
  match cell records (i + 13) 11 with
  | none => none
  | some weather =>
  match cell records (i + 14) 4 with
  | none => none
  | some entry =>
  match cell records (i + 14) 11 with
  | none => none
  | some airTemp =>
  match cell records (i + 17) 1 with
  | none => none
  | some operator =>
  match cell records (i + 17) 11 with
  | none => none
  | some waterType =>
  match cell records (i + 18) 11 with
  | none => none
  | some waterMinTemp =>
  match cell records (i + 19) 11 with
  | none => none
  | some waterVisibility =>
  match cell records (i + 20) 11 with
  | none => none
  | some driftDive =>
  some {
    Cardinal := cardinal
    Site := site
    Date := date
    Time := time
    Duration := duration
    SuitType := suitType
    MaxDepth := maxDepth
    SuitThickness := suitThickness
    AvgDepth := avgDepth
    Weights := weights
    TankPressureStart := tankPressureStart
    TankType := tankType
    TankPressureEnd := tankPressureEnd
    TankVolume := tankVolume
    DecompressionDive := decompressionDive
    Computer := computer
    Gas := gas
    DecoAlgPFact := decoAlgPFact
    O2 := o2
    CNS := cns
    Altitude := altitude
    Weather := weather
    From := entry
    AirTemp := airTemp
    Operator := operator
    WaterType := waterType
    WaterMinTemp := waterMinTemp
    WaterVisibility := waterVisibility
    DriftDive := driftDive }

/-- The variables the scan loop updates: the cursor `i` and the slice `dives`. -/
structure ScanState where
  i : Nat
  dives : List DiveData
  deriving DecidableEq, Repr

/-- One iteration of the scan loop.  `increment` is 1 unless the sentinel
matches, in which case a record is appended and `increment` is 23. -/
def loopBody (records : List (List String)) (s : ScanState) : Option ScanState :=
  match isSentinel records s.i with
  | none => none
  | some true =>
    match decode records s.i with
    | none => none
    | some d => some { i := s.i + 23, dives := s.dives ++ [d] }
  | some false => some { i := s.i + 1, dives := s.dives }

/-- The loop `for i < len(records) { ... }`, run for at most `fuel` iterations. -/
def extractLoop (records : List (List String)) : Nat → ScanState → Outcome (List DiveData)
  | fuel, s =>
    if s.i < records.length then
      match fuel with
      | 0 => .outOfFuel
      | fuel + 1 =>
        match loopBody records s with
        | none => .panicked
        | some s' => extractLoop records fuel s'
    else .done s.dives

/-- The extraction part of `main`: `dives := make([]DiveData, 0)`, `i := 0`,
then the scan loop.  The cursor grows on every iteration, so one unit of fuel
per row is enough. -/
def extract (records : List (List String)) : Outcome (List DiveData) :=
  extractLoop records records.length { i := 0, dives := [] }

/-! ## Reversal (`main`, the two-pointer loop) -/

/-- The index expression `dives[k]` for a Go `int` index; a negative or too
large index panics. -/
def diveAt (dives : List DiveData) (k : Int) : Option DiveData :=
  if k < 0 then none else dives[k.toNat]?

/-- The variables of the reversal loop: the slice and the two pointers. -/
structure SwapState where
  dives : List DiveData
  i : Int
  j : Int
  deriving DecidableEq, Repr

/-- One iteration of the reversal loop: the tuple assignment
`dives[i], dives[j] = dives[j], dives[i]` followed by the post statement
`i, j = i+1, j-1`. -/
def swapBody (s : SwapState) : Option SwapState :=
  match diveAt s.dives s.j with
  | none => none
  | some dj =>
    match diveAt s.dives s.i with
    | none => none
    | some di =>
      some { dives := (s.dives.set s.i.toNat dj).set s.j.toNat di, i := s.i + 1, j := s.j - 1 }

/-- The loop `for ...; i < j; ... { ... }`, run for at most `fuel` iterations. -/
def reverseLoop : Nat → SwapState → Outcome (List DiveData)
  | fuel, s =>
    if s.i < s.j then
      match fuel with
      | 0 => .outOfFuel
      | fuel + 1 =>
        match swapBody s with
        | none => .panicked
        | some s' => reverseLoop fuel s'
    else .done s.dives

/-- The reversal part of `main`: `i, j := 0, len(dives)-1`, then the loop.
The pointers close in on every iteration, so one unit of fuel per record is
enough. -/
def reverseDives (dives : List DiveData) : Outcome (List DiveData) :=
  reverseLoop dives.length { dives := dives, i := 0, j := (dives.length : Int) - 1 }

/-! ## Rendering (`TemplateMarkdownText` executed by `text/template`) -/

/-- The constant `TemplateName`. -/
def TemplateName : String := "dive-log"

/-- The constant `OutputFile`. -/
def OutputFile : String := TemplateName ++ ".md"

/-- A `range .Dives` action: the body is written once per element, in slice
order, and nothing is written for an empty slice. -/
def rangeDives (body : DiveData → String) : List DiveData → String
  | [] => ""
  | d :: ds => body d ++ rangeDives body ds

/-- Template text from the start to the first `range`: the front matter, the
title heading and the index heading. -/
def frontMatter (data : TemplateData) : String :=
  "---\n" ++
  "tags: [diving, my]\n" ++
  "title: " ++ data.Title ++ "\n" ++
  "comment: \x27This document is auto-generated from the master dive log using https://github.com/cicovic-andrija/dlconv.\x27\n" ++
  "created: \x272023-04-16T20:36:59.779Z\x27\n" ++
  "modified: \x27" ++ data.ModifiedTimeUTC ++ "\x27\n" ++
  "---\n" ++
  "\n" ++
  "# " ++ data.Title ++ "\n" ++
  "\n" ++
  "## Index\n"

/-- The text of one index entry, without the line break that precedes it. -/
def indexLine (d : DiveData) : String :=
  "- **[No. " ++ d.Cardinal ++ ": " ++ d.Site ++ ", " ++ d.Date ++ ".](#no-" ++ d.Cardinal ++ ")**"

/-- Body of the first `range`: a line break, then the index entry. -/
def indexEntry (d : DiveData) : String :=
  "\n" ++ indexLine d

/-- The text of one section heading line, without its line breaks. -/
def headingLine (d : DiveData) : String :=
  "### <a id=\"no-" ++ d.Cardinal ++ "\"></a>No. " ++ d.Cardinal ++ ": " ++ d.Site ++ ", " ++ d.Date ++ "."

/-- The table rows of a section that precede the suit row. -/
def rowsBeforeSuit (d : DiveData) : String :=
  "| Parameter | Value |\n" ++
  "| --------- | ----- |\n" ++
  "| Time in | " ++ d.Time ++ " |\n" ++
  "| Duration | " ++ d.Duration ++ " min |\n" ++
  "| Max. depth | " ++ d.MaxDepth ++ " m |\n" ++
  "| Avg. depth | " ++ d.AvgDepth ++ " m |\n" ++
  "| Tank pressure | " ++ d.TankPressureStart ++ " bar - " ++ d.TankPressureEnd ++ " bar |\n" ++
  "| Gas | " ++ d.Gas ++ " " ++ d.O2 ++ " % |\n" ++
  "| Decompression | " ++ d.DecompressionDive ++ " |\n" ++
  "| CNS | " ++ d.CNS ++ " % |\n" ++
  "| Altitude | " ++ d.Altitude ++ " m |\n" ++
  "| Entry | " ++ d.From ++ " |\n" ++
  "| Operator | " ++ d.Operator ++ " |\n"

/-- The suit row, without its line break:
`| Suit | {{ .SuitType }}{{ if ne .SuitType "Dry suit" }} {{ .SuitThickness }} mm{{ end }} |`. -/
def suitRow (d : DiveData) : String :=
  "| Suit | " ++ d.SuitType ++
  (if d.SuitType ≠ "Dry suit" then " " ++ d.SuitThickness ++ " mm" else "") ++
  " |"

/-- The table rows of a section that follow the suit row. -/
def rowsAfterSuit (d : DiveData) : String :=
  "| Weights | " ++ d.Weights ++ " kg |\n" ++
  "| Tank | " ++ d.TankType ++ " " ++ d.TankVolume ++ " litres |\n" ++
  "| Computer | " ++ d.Computer ++ " |\n" ++
  "| Weather | " ++ d.Weather ++ " |\n" ++
  "| Air temp. | " ++ d.AirTemp ++ " °C |\n" ++
  "| Water | " ++ d.WaterType ++ " |\n" ++
  "| Water temp. | " ++ d.WaterMinTemp ++ " °C |\n" ++
  "| Visibility | " ++ d.WaterVisibility ++ " |\n" ++
  "| Drift | " ++ d.DriftDive ++ " |\n"

/-- Body of the second `range`: a line break, the anchored heading, an empty
line and the table. -/
def diveSection (d : DiveData) : String :=
  "\n" ++ headingLine d ++ "\n" ++
  "\n" ++
  rowsBeforeSuit d ++ suitRow d ++ "\n" ++ rowsAfterSuit d

/-- The document `t.Execute` writes for `data`. -/
def execute (data : TemplateData) : String :=
  frontMatter data ++
  rangeDives indexEntry data.Dives ++
  "\n" ++
  "\n" ++
  "## Dive Data\n" ++
  rangeDives diveSection data.Dives ++
  "\n"

/-! ## The whole run -/

/-- The body of `main` from the parsed CSV rows on: extract, reverse, bind the
template data and execute the template.  `now` is the value of
`time.Now().UTC().Format(time.RFC3339)`. -/
def main (records : List (List String)) (now : String) : Outcome String :=
  (extract records).andThen fun dives =>
  (reverseDives dives).andThen fun reversed =>
  .done (execute { Title := "Dive Log", ModifiedTimeUTC := now, Dives := reversed })

/-! ## Output (`main`, from `os.Create` on) -/

/-- The answers of the operating system to the two output calls of `main`:
the `err` of `os.Create(OutputFile)` and the error `t.Execute(outFd, data)`
returns, `none` standing for `nil`. -/
structure OutputEnv where
  createErr : Option String
  executeErr : Option String
  deriving DecidableEq, Repr

/-- The output statements of `main`.  A failed `os.Create` panics.  The call
`t.Execute(outFd, data)` is an expression statement: whatever error it
returns is dropped and `main` returns normally. -/
def writeOutput (env : OutputEnv) (_data : TemplateData) : Outcome Unit :=
  match env.createErr with
  | some _ => .panicked
  | none =>
    match env.executeErr with
    | _ => .done ()

/-- The body of `main` from the parsed CSV rows to its end, with the output
calls answered by `env`. -/
def mainWithOutput (records : List (List String)) (now : String) (env : OutputEnv) :
    Outcome Unit :=
  (extract records).andThen fun dives =>
  (reverseDives dives).andThen fun reversed =>
  writeOutput env { Title := "Dive Log", ModifiedTimeUTC := now, Dives := reversed }

/-! ## Observers of the two loops -/

/-- The pointer pairs `(i, j)` at which the reversal loop executes its swap,
in order: the same guard and the same body as `reverseLoop`. -/
def swapTrace : Nat → SwapState → List (Int × Int)
  | fuel, s =>
    if s.i < s.j then
      match fuel with
      | 0 => []
      | fuel + 1 =>
        match swapBody s with
        | none => []
        | some s' => (s.i, s.j) :: swapTrace fuel s'
    else []

/-- The number of iterations the scan loop executes from state `s`, a
panicking iteration included: the same guard and the same body as
`extractLoop`. -/
def scanIterations (records : List (List String)) : Nat → ScanState → Nat
  | fuel, s =>
    if s.i < records.length then
      match fuel with
      | 0 => 0
      | fuel + 1 =>
        match loopBody records s with
        | none => 1
        | some s' => 1 + scanIterations records fuel s'
    else 0

/-! ## Vocabulary of the statements -/

/-- The predicate "record `d` holds, field by field, the cells of `records`
at the fixed coordinates relative to row `i`". -/
def FieldsAt (records : List (List String)) (i : Nat) (d : DiveData) : Prop :=
  cell records i 1 = some d.Cardinal ∧
  cell records (i + 1) 4 = some d.Site ∧
  cell records (i + 1) 9 = some d.Date ∧
  cell records (i + 1) 12 = some d.Time ∧
  cell records (i + 4) 4 = some d.Duration ∧
  cell records (i + 4) 11 = some d.SuitType ∧
  cell records (i + 5) 4 = some d.MaxDepth ∧
  cell records (i + 5) 11 = some d.SuitThickness ∧
  cell records (i + 6) 4 = some d.AvgDepth ∧
  cell records (i + 6) 11 = some d.Weights ∧
  cell records (i + 7) 4 = some d.TankPressureStart ∧
  cell records (i + 7) 11 = some d.TankType ∧
  cell records (i + 8) 4 = some d.TankPressureEnd ∧
  cell records (i + 8) 11 = some d.TankVolume ∧
  cell records (i + 9) 4 = some d.DecompressionDive ∧
  cell records (i + 9) 11 = some d.Computer ∧
  cell records (i + 10) 4 = some d.Gas ∧
  cell records (i + 10) 11 = some d.DecoAlgPFact ∧
  cell records (i + 11) 4 = some d.O2 ∧
  cell records (i + 12) 4 = some d.CNS ∧
  cell records (i + 13) 4 = some d.Altitude ∧
  cell records (i + 13) 11 = some d.Weather ∧
  cell records (i + 14) 4 = some d.From ∧
  cell records (i + 14) 11 = some d.AirTemp ∧
  cell records (i + 17) 1 = some d.Operator ∧
  cell records (i + 17) 11 = some d.WaterType ∧
  cell records (i + 18) 11 = some d.WaterMinTemp ∧
  cell records (i + 19) 11 = some d.WaterVisibility ∧
  cell records (i + 20) 11 = some d.DriftDive

/-- Moving a scan state past `n` extra leading rows. -/
def ScanState.shift (n : Nat) (s : ScanState) : ScanState :=
  { i := n + s.i, dives := s.dives }

/-- A complete dive block decoding to `d`: exactly 23 rows, the sentinel in
its first row, and every coordinate the source reads present and equal to the
field of `d` it is stored in. -/
def IsBlock (B : List (List String)) (d : DiveData) : Prop :=
  B.length = 23 ∧ cell B 0 4 = some "Site" ∧ cell B 0 9 = some "Date" ∧ FieldsAt B 0 d

instance (records : List (List String)) (i : Nat) (d : DiveData) :
    Decidable (FieldsAt records i d) := by
  unfold FieldsAt
  infer_instance

instance (B : List (List String)) (d : DiveData) : Decidable (IsBlock B d) := by
  unfold IsBlock
  infer_instance

/-- Specification, in the words of the spec: the sentinel condition on one
row, cell 4 equals "Site" and cell 9 equals "Date". -/
def sentinelRow (row : List String) : Bool :=
  decide (row[4]? = some "Site" ∧ row[9]? = some "Date")

/-- Specification, in the words of the spec: the row positions at which the
sentinel condition holds when the rows are scanned with block-skipping.
`pos` is the position of the first row of the list and `skip` the number of
rows still covered by the block matched last: a match at `pos` reports `pos`
and covers the 22 rows after it, any other uncovered row is passed by. -/
def blockStartsFrom : List (List String) → Nat → Nat → List Nat
  | [], _, _ => []
  | _ :: rest, pos, skip + 1 => blockStartsFrom rest (pos + 1) skip
  | row :: rest, pos, 0 =>
    if sentinelRow row then pos :: blockStartsFrom rest (pos + 1) 22
    else blockStartsFrom rest (pos + 1) 0

/-- Specification: the block starts of a whole input, scanned from row 0. -/
def blockStarts (records : List (List String)) : List Nat :=
  blockStartsFrom records 0 0

/-- The cursor positions the scan loop of `main` can be at: position 0 with
no records, and every state a successful iteration leads to. -/
inductive Reaches (records : List (List String)) : ScanState → Prop where
  | start : Reaches records { i := 0, dives := [] }
  | step {s s' : ScanState} : Reaches records s → s.i < records.length →
      loopBody records s = some s' → Reaches records s'

/-- The coordinates `(row offset, column)` of the 29 index expressions in the
composite literal `DiveData{...}`, in source order. -/
def readCoords : List (Nat × Nat) :=
  [(0, 1), (1, 4), (1, 9), (1, 12), (4, 4), (4, 11), (5, 4), (5, 11), (6, 4), (6, 11),
   (7, 4), (7, 11), (8, 4), (8, 11), (9, 4), (9, 11), (10, 4), (10, 11), (11, 4), (12, 4),
   (13, 4), (13, 11), (14, 4), (14, 11), (17, 1), (17, 11), (18, 11), (19, 11), (20, 11)]

/-- The record `d` with its `DecoAlgPFact` field blanked: two records differ
at most in `DecoAlgPFact` exactly when this maps them to the same record. -/
def erasePFact (d : DiveData) : DiveData :=
  { d with DecoAlgPFact := "" }

/-- The coordinates `(row offset, column)` a matched block is read at: the
two sentinel cells of its first row and the 29 cells of the literal. -/
def blockCoords : List (Nat × Nat) :=
  (0, 4) :: (0, 9) :: readCoords

/-- The rows with the cell at row `k`, column `c` replaced by `x` (unchanged
when there is no such row or no such cell). -/
def setCell (rows : List (List String)) (k c : Nat) (x : String) : List (List String) :=
  match rows[k]? with
  | none => rows
  | some row => rows.set k (row.set c x)

/-! ## Test data -/

/-- A row of thirteen cells holding `a` in cell 1, `b` in cell 4, `c` in
cell 9, `e` in cell 11 and `f` in cell 12. -/
def row13 (a b c e f : String) : List String :=
  ["", a, "", "", b, "", "", "", "", c, "", e, f]

/-- A complete 23-row block for dive number `n` at site `site`. -/
def sampleBlock (n site : String) : List (List String) :=
  [ row13 n "Site" "Date" "" "",
    row13 "" site "2023-01-01" "" "10:30",
    row13 "" "" "" "" "",
    row13 "" "" "" "" "",
    row13 "" "45" "" "Wet suit" "",
    row13 "" "18.2" "" "5" "",
    row13 "" "11.0" "" "6" "",
    row13 "" "200" "" "Steel" "",
    row13 "" "60" "" "12" "",
    row13 "" "No" "" "Perdix" "",
    row13 "" "Air" "" "0.3" "",
    row13 "" "21" "" "" "",
    row13 "" "12" "" "" "",
    row13 "" "0" "" "Sunny" "",
    row13 "" "Boat" "" "28" "",
    row13 "" "" "" "" "",
    row13 "" "" "" "" "",
    row13 "Deep Divers" "" "" "Salt" "",
    row13 "" "" "" "24" "",
    row13 "" "" "" "Good" "",
    row13 "" "" "" "No" "",
    row13 "" "" "" "" "",
    row13 "" "" "" "" "" ]

/-- The record the source decodes from `sampleBlock n site`. -/
def sampleDive (n site : String) : DiveData :=
  { Cardinal := n, Site := site, Date := "2023-01-01", Time := "10:30",
    Duration := "45", SuitType := "Wet suit", MaxDepth := "18.2", SuitThickness := "5",
    AvgDepth := "11.0", Weights := "6", TankPressureStart := "200", TankType := "Steel",
    TankPressureEnd := "60", TankVolume := "12", DecompressionDive := "No",
    Computer := "Perdix", Gas := "Air", DecoAlgPFact := "0.3", O2 := "21", CNS := "12",
    Altitude := "0", Weather := "Sunny", From := "Boat", AirTemp := "28",
    Operator := "Deep Divers", WaterType := "Salt", WaterMinTemp := "24",
    WaterVisibility := "Good", DriftDive := "No" }

/-- A header row that satisfies the sentinel condition. -/
def sentinelOnly : List String :=
  row13 "9" "Site" "Date" "" ""

/-- The sample block with its unread row at offset 2 replaced by a row that
itself satisfies the sentinel condition. -/
def nestedBlock (n site : String) : List (List String) :=
  (sampleBlock n site).set 2 sentinelOnly

/-- A row of thirteen empty cells. -/
def blankRow : List String :=
  row13 "" "" "" "" ""

/-- The sample block with its row at offset 5 cut down to five cells, so that
the suit-thickness cell (column 11) does not exist. -/
def shortRowBlock (n site : String) : List (List String) :=
  (sampleBlock n site).set 5 ["", "", "", "", "18.2"]

/-! # Theorems -/

/-! ## Extraction: decoding one block -/

/-- Decoding succeeds with `d` exactly when all 29 cells exist and `d` holds them. -/
theorem decode_eq_some_iff (records : List (List String)) (i : Nat) (d : DiveData) :
    decode records i = some d ↔ FieldsAt records i d := by
  unfold FieldsAt
  constructor
  · intro h
    unfold decode at h
    repeat' split at h
    any_goals contradiction
    simp only [Option.some.injEq] at h
    subst h
    simp [*]
  · intro h
    obtain ⟨h1, h2, h3, h4, h5, h6, h7, h8, h9, h10, h11, h12, h13, h14, h15, h16, h17, h18, h19, h20, h21, h22, h23, h24, h25, h26, h27, h28, h29⟩ := h
    simp only [decode, h1, h2, h3, h4, h5, h6, h7, h8, h9, h10, h11, h12, h13, h14, h15, h16, h17, h18, h19, h20, h21, h22, h23, h24, h25, h26, h27, h28, h29]

/-! ## Reversal: the swap loop computes `List.reverse` -/

theorem getElem?_append_add {α : Type} (pre l : List α) (k : Nat) :
    (pre ++ l)[pre.length + k]? = l[k]? := by
  induction pre with
  | nil => simp
  | cons x pre ih =>
    have hk : (x :: pre).length + k = (pre.length + k) + 1 := by simp; omega
    rw [hk]
    simpa using ih

theorem set_append_add {α : Type} (pre l : List α) (k : Nat) (x : α) :
    (pre ++ l).set (pre.length + k) x = pre ++ l.set k x := by
  induction pre with
  | nil => simp
  | cons y pre ih =>
    have hk : (y :: pre).length + k = (pre.length + k) + 1 := by simp; omega
    rw [hk]
    simp [ih]

theorem getElem?_left_pointer {α : Type} (pre mid post : List α) (a b : α) :
    (pre ++ a :: (mid ++ b :: post))[pre.length]? = some a := by
  simpa using getElem?_append_add pre (a :: (mid ++ b :: post)) 0

theorem getElem?_right_pointer {α : Type} (pre mid post : List α) (a b : α) :
    (pre ++ a :: (mid ++ b :: post))[pre.length + (mid.length + 1)]? = some b := by
  rw [getElem?_append_add]
  simpa using getElem?_append_add mid (b :: post) 0

theorem set_both_pointers {α : Type} (pre mid post : List α) (a b x y : α) :
    ((pre ++ a :: (mid ++ b :: post)).set pre.length x).set (pre.length + (mid.length + 1)) y
      = pre ++ x :: (mid ++ y :: post) := by
  have h1 := set_append_add pre (a :: (mid ++ b :: post)) 0 x
  simp only [Nat.add_zero, List.set_cons_zero] at h1
  rw [h1, set_append_add]
  have h2 := set_append_add mid (b :: post) 0 y
  simp only [Nat.add_zero, List.set_cons_zero] at h2
  simp [h2]

/-- One iteration with the left pointer on `a` and the right pointer on `b`
exchanges the two and moves both pointers inwards. -/
theorem swapBody_append (pre mid post : List DiveData) (a b : DiveData) :
    swapBody { dives := pre ++ a :: (mid ++ b :: post), i := (pre.length : Int),
               j := ((pre.length + (mid.length + 1) : Nat) : Int) }
      = some { dives := pre ++ b :: (mid ++ a :: post), i := (pre.length : Int) + 1,
               j := ((pre.length + (mid.length + 1) : Nat) : Int) - 1 } := by
  have hi : ¬ ((pre.length : Int) < 0) := by omega
  have hj : ¬ (((pre.length + (mid.length + 1) : Nat) : Int) < 0) := by omega
  simp only [swapBody, diveAt, hi, hj, if_false, Int.toNat_ofNat,
    getElem?_left_pointer, getElem?_right_pointer, set_both_pointers]

/-- The loop reverses the part of the slice between its two pointers and
leaves the rest alone. -/
theorem reverseLoop_append (fuel : Nat) :
    ∀ (mid pre post : List DiveData), mid.length ≤ 2 * fuel + 1 →
      reverseLoop fuel { dives := pre ++ (mid ++ post), i := (pre.length : Int),
                         j := (pre.length : Int) + (mid.length : Int) - 1 }
        = .done (pre ++ (mid.reverse ++ post)) := by
  induction fuel with
  | zero =>
    intro mid pre post hlen
    match mid, hlen with
    | [], _ => simp [reverseLoop]
    | [a], _ => simp [reverseLoop]
  | succ fuel ih =>
    intro mid pre post hlen
    match mid, hlen with
    | [], _ => simp [reverseLoop]
    | [a], _ => simp [reverseLoop]
    | a :: c :: rest, hlen =>
      obtain ⟨mid', b, hmid⟩ : ∃ mid' b, c :: rest = mid' ++ [b] := by
        rcases List.eq_nil_or_concat (c :: rest) with h | ⟨L, b, h⟩
        · exact absurd h (by simp)
        · exact ⟨L, b, by simpa using h⟩
      rw [hmid]
      have hlen' : mid'.length ≤ 2 * fuel + 1 := by
        have : (c :: rest).length = mid'.length + 1 := by rw [hmid]; simp
        simp only [List.length_cons] at hlen this
        omega
      have hj : (pre.length : Int) + ((a :: (mid' ++ [b])).length : Int) - 1
          = ((pre.length + (mid'.length + 1) : Nat) : Int) := by
        simp only [List.length_cons, List.length_append, List.length_nil]
        push_cast
        omega
      have hlt : (pre.length : Int) < ((pre.length + (mid'.length + 1) : Nat) : Int) := by
        push_cast
        omega
      have hdives : pre ++ (a :: (mid' ++ [b]) ++ post) = pre ++ a :: (mid' ++ b :: post) := by
        simp
      rw [hj, hdives, reverseLoop]
      simp only [hlt, if_true, swapBody_append]
      have hnext := ih mid' (pre ++ [b]) (a :: post) hlen'
      have hst : ({ dives := pre ++ b :: (mid' ++ a :: post), i := (pre.length : Int) + 1,
                    j := ((pre.length + (mid'.length + 1) : Nat) : Int) - 1 } : SwapState)
          = { dives := (pre ++ [b]) ++ (mid' ++ a :: post), i := ((pre ++ [b]).length : Int),
              j := ((pre ++ [b]).length : Int) + (mid'.length : Int) - 1 } := by
        simp only [List.length_append, List.length_cons, List.length_nil, List.append_assoc,
          List.singleton_append]
        congr 1
        push_cast
        omega
      rw [hst, hnext]
      simp

/-- The reversal loop of `main` never panics, never runs out of fuel, and
returns the reversed slice. -/
theorem reverseDives_eq_reverse (dives : List DiveData) :
    reverseDives dives = .done dives.reverse := by
  have h := reverseLoop_append dives.length dives [] [] (by omega)
  simpa [reverseDives] using h

/-! ## Extraction: the sentinel test and one loop iteration -/

theorem isSentinel_eq_some_true_iff (records : List (List String)) (i : Nat) :
    isSentinel records i = some true ↔
      cell records i 4 = some "Site" ∧ cell records i 9 = some "Date" := by
  unfold isSentinel
  constructor
  · intro h
    split at h
    · contradiction
    · rename_i a ha
      split at h
      · rename_i hsite
        split at h
        · contradiction
        · rename_i b hb
          simp only [Option.some.injEq, decide_eq_true_eq] at h
          subst hsite
          subst h
          exact ⟨ha, hb⟩
      · simp at h
  · rintro ⟨h4, h9⟩
    simp [h4, h9]

/-- A successful iteration moves the cursor forward. -/
theorem loopBody_cursor_lt (records : List (List String)) (s s' : ScanState)
    (h : loopBody records s = some s') : s.i < s'.i := by
  unfold loopBody at h
  split at h
  · contradiction
  · split at h
    · contradiction
    · simp only [Option.some.injEq] at h
      subst h
      simp
  · simp only [Option.some.injEq] at h
    subst h
    simp

/-- Once the fuel covers the rows that remain, more fuel changes nothing. -/
theorem extractLoop_fuel_irrel (records : List (List String)) (f1 : Nat) :
    ∀ (f2 : Nat) (s : ScanState), records.length - s.i ≤ f1 → records.length - s.i ≤ f2 →
      extractLoop records f1 s = extractLoop records f2 s := by
  induction f1 with
  | zero =>
    intro f2 s h1 _
    have hge : ¬ s.i < records.length := by omega
    cases f2 <;> simp [extractLoop, hge]
  | succ f1 ih =>
    intro f2 s h1 h2
    by_cases hlt : s.i < records.length
    · cases f2 with
      | zero => omega
      | succ f2 =>
        rw [extractLoop, extractLoop]
        simp only [hlt, if_true]
        cases hb : loopBody records s with
        | none => rfl
        | some s' =>
          have hcur := loopBody_cursor_lt records s s' hb
          exact ih f2 s' (by omega) (by omega)
    · cases f2 <;> simp [extractLoop, hlt]

/-- One unit of fuel per remaining row is enough: the loop never stops for
lack of fuel. -/
theorem extractLoop_ne_outOfFuel (records : List (List String)) (fuel : Nat) :
    ∀ (s : ScanState), records.length - s.i ≤ fuel →
      extractLoop records fuel s ≠ .outOfFuel := by
  induction fuel with
  | zero =>
    intro s h
    have hge : ¬ s.i < records.length := by omega
    simp [extractLoop, hge]
  | succ fuel ih =>
    intro s h
    by_cases hlt : s.i < records.length
    · rw [extractLoop]
      simp only [hlt, if_true]
      cases hb : loopBody records s with
      | none => simp
      | some s' =>
        have hcur := loopBody_cursor_lt records s s' hb
        exact ih s' (by omega)
    · simp [extractLoop, hlt]

/-! ## Extraction: rows before the cursor and records already appended do not matter -/

theorem cell_append_add (P R : List (List String)) (k c : Nat) :
    cell (P ++ R) (P.length + k) c = cell R k c := by
  simp only [cell, getElem?_append_add]

theorem cell_append_of_some (B R : List (List String)) (r c : Nat) (x : String)
    (h : cell B r c = some x) : cell (B ++ R) r c = some x := by
  unfold cell at h ⊢
  split at h
  · contradiction
  · rename_i row hrow
    have hlt : r < B.length := by
      by_contra hge
      have : B[r]? = none := List.getElem?_eq_none (by omega)
      rw [this] at hrow
      contradiction
    rw [List.getElem?_append_left hlt, hrow]
    exact h

theorem isSentinel_append_add (P R : List (List String)) (k : Nat) :
    isSentinel (P ++ R) (P.length + k) = isSentinel R k := by
  simp only [isSentinel, cell_append_add]

theorem decode_append_add (P R : List (List String)) (k : Nat) :
    decode (P ++ R) (P.length + k) = decode R k := by
  simp only [decode, Nat.add_assoc, cell_append_add]

theorem loopBody_append_add (P R : List (List String)) (k : Nat) (ds : List DiveData) :
    loopBody (P ++ R) { i := P.length + k, dives := ds }
      = (loopBody R { i := k, dives := ds }).map (ScanState.shift P.length) := by
  simp only [loopBody, isSentinel_append_add, decode_append_add]
  cases isSentinel R k with
  | none => rfl
  | some b =>
    cases b with
    | false => rfl
    | true =>
      cases decode R k with
      | none => rfl
      | some d => simp [ScanState.shift, Nat.add_assoc]

/-- Scanning `P ++ R` from a cursor inside `R` is scanning `R`. -/
theorem extractLoop_append_add (P R : List (List String)) (fuel : Nat) :
    ∀ (k : Nat) (ds : List DiveData),
      extractLoop (P ++ R) fuel { i := P.length + k, dives := ds }
        = extractLoop R fuel { i := k, dives := ds } := by
  induction fuel with
  | zero =>
    intro k ds
    simp [extractLoop]
  | succ fuel ih =>
    intro k ds
    rw [extractLoop, extractLoop]
    simp only [List.length_append, Nat.add_lt_add_iff_left, loopBody_append_add]
    split
    · cases loopBody R { i := k, dives := ds } with
      | none => rfl
      | some s' =>
        obtain ⟨i', ds'⟩ := s'
        simpa [ScanState.shift] using ih i' ds'
    · rfl

theorem loopBody_acc (records : List (List String)) (i : Nat) (ds : List DiveData) :
    loopBody records { i := i, dives := ds }
      = (loopBody records { i := i, dives := [] }).map
          (fun s => { i := s.i, dives := ds ++ s.dives }) := by
  simp only [loopBody]
  cases isSentinel records i with
  | none => rfl
  | some b =>
    cases b with
    | false => simp
    | true =>
      cases decode records i with
      | none => rfl
      | some d => simp

/-- Records appended before the loop is entered stay in front, untouched. -/
theorem extractLoop_acc (records : List (List String)) (fuel : Nat) :
    ∀ (i : Nat) (ds : List DiveData),
      extractLoop records fuel { i := i, dives := ds }
        = (extractLoop records fuel { i := i, dives := [] }).map (fun out => ds ++ out) := by
  induction fuel with
  | zero =>
    intro i ds
    simp only [extractLoop]
    split <;> simp [Outcome.map]
  | succ fuel ih =>
    intro i ds
    rw [extractLoop, extractLoop]
    simp only []
    split
    · rw [loopBody_acc records i ds]
      cases loopBody records { i := i, dives := [] } with
      | none => rfl
      | some s' =>
        obtain ⟨i', ds'⟩ := s'
        simp only [Option.map_some']
        rw [ih i' (ds ++ ds'), ih i' ds']
        cases extractLoop records fuel { i := i', dives := [] } <;> simp [Outcome.map]
    · simp [Outcome.map]

/-! ## Extraction: a complete block in front of the input -/

theorem FieldsAt_append (B R : List (List String)) (i : Nat) (d : DiveData)
    (h : FieldsAt B i d) : FieldsAt (B ++ R) i d := by
  unfold FieldsAt at h ⊢
  obtain ⟨h1, h2, h3, h4, h5, h6, h7, h8, h9, h10, h11, h12, h13, h14, h15, h16, h17, h18, h19, h20, h21, h22, h23, h24, h25, h26, h27, h28, h29⟩ := h
  exact ⟨cell_append_of_some _ _ _ _ _ h1, cell_append_of_some _ _ _ _ _ h2, cell_append_of_some _ _ _ _ _ h3, cell_append_of_some _ _ _ _ _ h4, cell_append_of_some _ _ _ _ _ h5, cell_append_of_some _ _ _ _ _ h6, cell_append_of_some _ _ _ _ _ h7, cell_append_of_some _ _ _ _ _ h8, cell_append_of_some _ _ _ _ _ h9, cell_append_of_some _ _ _ _ _ h10, cell_append_of_some _ _ _ _ _ h11, cell_append_of_some _ _ _ _ _ h12, cell_append_of_some _ _ _ _ _ h13, cell_append_of_some _ _ _ _ _ h14, cell_append_of_some _ _ _ _ _ h15, cell_append_of_some _ _ _ _ _ h16, cell_append_of_some _ _ _ _ _ h17, cell_append_of_some _ _ _ _ _ h18, cell_append_of_some _ _ _ _ _ h19, cell_append_of_some _ _ _ _ _ h20, cell_append_of_some _ _ _ _ _ h21, cell_append_of_some _ _ _ _ _ h22, cell_append_of_some _ _ _ _ _ h23, cell_append_of_some _ _ _ _ _ h24, cell_append_of_some _ _ _ _ _ h25, cell_append_of_some _ _ _ _ _ h26, cell_append_of_some _ _ _ _ _ h27, cell_append_of_some _ _ _ _ _ h28, cell_append_of_some _ _ _ _ _ h29⟩

/-- The iteration at the first row of a complete block appends its record and
jumps to the row after the block. -/
theorem loopBody_block (B R : List (List String)) (d : DiveData) (ds : List DiveData)
    (h : IsBlock B d) :
    loopBody (B ++ R) { i := 0, dives := ds } = some { i := 23, dives := ds ++ [d] } := by
  obtain ⟨_, h4, h9, hf⟩ := h
  have hs : isSentinel (B ++ R) 0 = some true :=
    (isSentinel_eq_some_true_iff _ _).mpr
      ⟨cell_append_of_some _ _ _ _ _ h4, cell_append_of_some _ _ _ _ _ h9⟩
  have hd : decode (B ++ R) 0 = some d :=
    (decode_eq_some_iff _ _ _).mpr (FieldsAt_append B R 0 d hf)
  simp [loopBody, hs, hd]

/-- Extraction of a complete block followed by `R` is the block's record
followed by the extraction of `R`. -/
theorem extract_block_append (B R : List (List String)) (d : DiveData) (h : IsBlock B d) :
    extract (B ++ R) = (extract R).map (fun out => d :: out) := by
  have hlen : B.length = 23 := h.1
  have hfuel : (B ++ R).length = (22 + R.length) + 1 := by
    simp only [List.length_append, hlen]
    omega
  unfold extract
  rw [hfuel, extractLoop]
  have hpos : (0 : Nat) < 22 + R.length + 1 := by omega
  have hpos' : (0 : Nat) < (B ++ R).length := by omega
  simp only [hpos', if_true, loopBody_block B R d [] h, List.nil_append]
  have hshift := extractLoop_append_add B R (22 + R.length) 0 [d]
  simp only [hlen, Nat.add_zero] at hshift
  rw [hshift, extractLoop_fuel_irrel R (22 + R.length) R.length { i := 0, dives := [d] }
    (by simp) (by simp), extractLoop_acc R R.length 0 [d]]
  rfl

/-! ## Extraction against the block-skipping specification -/

theorem blockStartsFrom_skip (skip : Nat) :
    ∀ (l : List (List String)) (pos : Nat),
      blockStartsFrom l pos skip = blockStartsFrom (l.drop skip) (pos + skip) 0 := by
  induction skip with
  | zero => intro l pos; simp
  | succ skip ih =>
    intro l pos
    cases l with
    | nil => simp [blockStartsFrom]
    | cons row rest =>
      rw [blockStartsFrom, ih rest (pos + 1)]
      simp [Nat.add_assoc, Nat.add_comm 1 skip]

theorem cell_eq_of_lt (records : List (List String)) (i c : Nat) (h : i < records.length) :
    cell records i c = (records[i])[c]? := by
  simp [cell, List.getElem?_eq_getElem h]

/-- The sentinel test of the source, when it does not panic, agrees with the
sentinel condition of the specification. -/
theorem isSentinel_eq_sentinelRow (records : List (List String)) (i : Nat) (b : Bool)
    (hlt : i < records.length) (h : isSentinel records i = some b) :
    sentinelRow (records[i]) = b := by
  cases b with
  | true =>
    have h' := (isSentinel_eq_some_true_iff records i).mp h
    rw [cell_eq_of_lt records i 4 hlt, cell_eq_of_lt records i 9 hlt] at h'
    simp [sentinelRow, h'.1, h'.2]
  | false =>
    unfold isSentinel at h
    rw [cell_eq_of_lt records i 4 hlt, cell_eq_of_lt records i 9 hlt] at h
    unfold sentinelRow
    split at h
    · contradiction
    · rename_i a ha
      split at h
      · split at h
        · contradiction
        · rename_i c hc
          simp only [Option.some.injEq, decide_eq_false_iff_not] at h
          simp [hc, h]
      · rename_i hne
        simp [ha, hne]

/-- Whenever the scan loop finishes, the records it appended are, in order,
the decodings of the blocks at the positions the block-skipping specification
reports. -/
theorem extractLoop_done_spec (records : List (List String)) (fuel : Nat) :
    ∀ (i : Nat) (ds out : List DiveData),
      extractLoop records fuel { i := i, dives := ds } = .done out →
      ∃ new, out = ds ++ new ∧
        List.Forall₂ (fun p d => FieldsAt records p d)
          (blockStartsFrom (records.drop i) i 0) new := by
  induction fuel with
  | zero =>
    intro i ds out h
    by_cases hlt : i < records.length
    · simp [extractLoop, hlt] at h
    · simp only [extractLoop, hlt, if_false, Outcome.done.injEq] at h
      refine ⟨[], by simp [h], ?_⟩
      rw [List.drop_of_length_le (by omega)]
      simp [blockStartsFrom]
  | succ fuel ih =>
    intro i ds out h
    by_cases hlt : i < records.length
    · rw [extractLoop] at h
      simp only [hlt, if_true] at h
      rw [List.drop_eq_getElem_cons hlt]
      unfold loopBody at h
      simp only [] at h
      cases hs : isSentinel records i with
      | none => simp [hs] at h
      | some b =>
        have hrow := isSentinel_eq_sentinelRow records i b hlt hs
        cases b with
        | false =>
          simp only [hs] at h
          obtain ⟨new, hout, hall⟩ := ih (i + 1) ds out h
          refine ⟨new, hout, ?_⟩
          simp only [blockStartsFrom, hrow]
          simpa using hall
        | true =>
          simp only [hs] at h
          cases hd : decode records i with
          | none => simp [hd] at h
          | some d =>
            simp only [hd] at h
            obtain ⟨new, hout, hall⟩ := ih (i + 23) (ds ++ [d]) out h
            refine ⟨d :: new, by simp [hout], ?_⟩
            simp only [blockStartsFrom, hrow, if_true]
            rw [blockStartsFrom_skip 22, List.drop_drop]
            refine List.Forall₂.cons ((decode_eq_some_iff records i d).mp hd) ?_
            have e2 : i + 1 + 22 = i + 23 := by omega
            rw [e2]
            exact hall
    · simp only [extractLoop, hlt, if_false] at h
      cases fuel <;>
      · simp only [Outcome.done.injEq] at h
        refine ⟨[], by simp [h], ?_⟩
        rw [List.drop_of_length_le (by omega)]
        simp [blockStartsFrom]

/-- Every reported block start is at or after the scan position plus the rows
still to skip. -/
theorem blockStartsFrom_ge :
    ∀ (l : List (List String)) (pos skip p : Nat),
      p ∈ blockStartsFrom l pos skip → pos + skip ≤ p := by
  intro l
  induction l with
  | nil => intro pos skip p h; simp [blockStartsFrom] at h
  | cons row rest ih =>
    intro pos skip p h
    cases skip with
    | succ skip =>
      rw [blockStartsFrom] at h
      have := ih (pos + 1) skip p h
      omega
    | zero =>
      rw [blockStartsFrom] at h
      split at h
      · rcases List.mem_cons.mp h with h | h
        · omega
        · have := ih (pos + 1) 22 p h
          omega
      · have := ih (pos + 1) 0 p h
        omega

/-- Reported block starts are at least 23 rows apart. -/
theorem blockStartsFrom_pairwise :
    ∀ (l : List (List String)) (pos skip : Nat),
      List.Pairwise (fun p q => p + 23 ≤ q) (blockStartsFrom l pos skip) := by
  intro l
  induction l with
  | nil => intro pos skip; simp [blockStartsFrom]
  | cons row rest ih =>
    intro pos skip
    cases skip with
    | succ skip =>
      rw [blockStartsFrom]
      exact ih (pos + 1) skip
    | zero =>
      rw [blockStartsFrom]
      split
      · refine List.Pairwise.cons ?_ (ih (pos + 1) 22)
        intro q hq
        have := blockStartsFrom_ge rest (pos + 1) 22 q hq
        omega
      · exact ih (pos + 1) 0

/-- Every reported block start is a row that satisfies the sentinel condition. -/
theorem blockStartsFrom_sentinel :
    ∀ (l : List (List String)) (pos skip p : Nat),
      p ∈ blockStartsFrom l pos skip →
        ∃ row, l[p - pos]? = some row ∧ sentinelRow row = true := by
  intro l
  induction l with
  | nil => intro pos skip p h; simp [blockStartsFrom] at h
  | cons row rest ih =>
    intro pos skip p h
    have shiftIdx : ∀ q, pos + 1 ≤ q → (row :: rest)[q - pos]? = rest[q - (pos + 1)]? := by
      intro q hq
      have : q - pos = (q - (pos + 1)) + 1 := by omega
      rw [this]
      simp
    cases skip with
    | succ skip =>
      rw [blockStartsFrom] at h
      have hge := blockStartsFrom_ge rest (pos + 1) skip p h
      rw [shiftIdx p (by omega)]
      exact ih (pos + 1) skip p h
    | zero =>
      rw [blockStartsFrom] at h
      split at h
      · rename_i hrow
        rcases List.mem_cons.mp h with h | h
        · subst h
          exact ⟨row, by simp, hrow⟩
        · have hge := blockStartsFrom_ge rest (pos + 1) 22 p h
          rw [shiftIdx p (by omega)]
          exact ih (pos + 1) 22 p h
      · have hge := blockStartsFrom_ge rest (pos + 1) 0 p h
        rw [shiftIdx p (by omega)]
        exact ih (pos + 1) 0 p h

/-! ## Extraction: when decoding succeeds and when it cannot -/

/-- Decoding succeeds as soon as every coordinate the literal reads exists. -/
theorem decode_isSome_of_coords (records : List (List String)) (i : Nat)
    (h : ∀ rc ∈ readCoords, (cell records (i + rc.1) rc.2).isSome = true) :
    ∃ d, decode records i = some d := by
  obtain ⟨v1, h1⟩ := Option.isSome_iff_exists.mp (h (0, 1) (by simp [readCoords]))
  obtain ⟨v2, h2⟩ := Option.isSome_iff_exists.mp (h (1, 4) (by simp [readCoords]))
  obtain ⟨v3, h3⟩ := Option.isSome_iff_exists.mp (h (1, 9) (by simp [readCoords]))
  obtain ⟨v4, h4⟩ := Option.isSome_iff_exists.mp (h (1, 12) (by simp [readCoords]))
  obtain ⟨v5, h5⟩ := Option.isSome_iff_exists.mp (h (4, 4) (by simp [readCoords]))
  obtain ⟨v6, h6⟩ := Option.isSome_iff_exists.mp (h (4, 11) (by simp [readCoords]))
  obtain ⟨v7, h7⟩ := Option.isSome_iff_exists.mp (h (5, 4) (by simp [readCoords]))
  obtain ⟨v8, h8⟩ := Option.isSome_iff_exists.mp (h (5, 11) (by simp [readCoords]))
  obtain ⟨v9, h9⟩ := Option.isSome_iff_exists.mp (h (6, 4) (by simp [readCoords]))
  obtain ⟨v10, h10⟩ := Option.isSome_iff_exists.mp (h (6, 11) (by simp [readCoords]))
  obtain ⟨v11, h11⟩ := Option.isSome_iff_exists.mp (h (7, 4) (by simp [readCoords]))
  obtain ⟨v12, h12⟩ := Option.isSome_iff_exists.mp (h (7, 11) (by simp [readCoords]))
  obtain ⟨v13, h13⟩ := Option.isSome_iff_exists.mp (h (8, 4) (by simp [readCoords]))
  obtain ⟨v14, h14⟩ := Option.isSome_iff_exists.mp (h (8, 11) (by simp [readCoords]))
  obtain ⟨v15, h15⟩ := Option.isSome_iff_exists.mp (h (9, 4) (by simp [readCoords]))
  obtain ⟨v16, h16⟩ := Option.isSome_iff_exists.mp (h (9, 11) (by simp [readCoords]))
  obtain ⟨v17, h17⟩ := Option.isSome_iff_exists.mp (h (10, 4) (by simp [readCoords]))
  obtain ⟨v18, h18⟩ := Option.isSome_iff_exists.mp (h (10, 11) (by simp [readCoords]))
  obtain ⟨v19, h19⟩ := Option.isSome_iff_exists.mp (h (11, 4) (by simp [readCoords]))
  obtain ⟨v20, h20⟩ := Option.isSome_iff_exists.mp (h (12, 4) (by simp [readCoords]))
  obtain ⟨v21, h21⟩ := Option.isSome_iff_exists.mp (h (13, 4) (by simp [readCoords]))
  obtain ⟨v22, h22⟩ := Option.isSome_iff_exists.mp (h (13, 11) (by simp [readCoords]))
  obtain ⟨v23, h23⟩ := Option.isSome_iff_exists.mp (h (14, 4) (by simp [readCoords]))
  obtain ⟨v24, h24⟩ := Option.isSome_iff_exists.mp (h (14, 11) (by simp [readCoords]))
  obtain ⟨v25, h25⟩ := Option.isSome_iff_exists.mp (h (17, 1) (by simp [readCoords]))
  obtain ⟨v26, h26⟩ := Option.isSome_iff_exists.mp (h (17, 11) (by simp [readCoords]))
  obtain ⟨v27, h27⟩ := Option.isSome_iff_exists.mp (h (18, 11) (by simp [readCoords]))
  obtain ⟨v28, h28⟩ := Option.isSome_iff_exists.mp (h (19, 11) (by simp [readCoords]))
  obtain ⟨v29, h29⟩ := Option.isSome_iff_exists.mp (h (20, 11) (by simp [readCoords]))
  simp only [Nat.add_zero] at h1
  exact ⟨{ Cardinal := v1, Site := v2, Date := v3, Time := v4, Duration := v5, SuitType := v6, MaxDepth := v7, SuitThickness := v8, AvgDepth := v9, Weights := v10, TankPressureStart := v11, TankType := v12, TankPressureEnd := v13, TankVolume := v14, DecompressionDive := v15, Computer := v16, Gas := v17, DecoAlgPFact := v18, O2 := v19, CNS := v20, Altitude := v21, Weather := v22, From := v23, AirTemp := v24, Operator := v25, WaterType := v26, WaterMinTemp := v27, WaterVisibility := v28, DriftDive := v29 },
    (decode_eq_some_iff _ _ _).mpr ⟨h1, h2, h3, h4, h5, h6, h7, h8, h9, h10, h11, h12, h13, h14, h15, h16, h17, h18, h19, h20, h21, h22, h23, h24, h25, h26, h27, h28, h29⟩⟩

theorem cell_eq_none_of_le (records : List (List String)) (r c : Nat)
    (h : records.length ≤ r) : cell records r c = none := by
  simp [cell, List.getElem?_eq_none h]

theorem lt_length_of_cell_eq_some (records : List (List String)) (r c : Nat) (x : String)
    (h : cell records r c = some x) : r < records.length := by
  by_contra hge
  rw [cell_eq_none_of_le records r c (by omega)] at h
  contradiction

/-- Decoding needs row `i + 20`: with fewer than 21 rows from `i` on it panics. -/
theorem decode_eq_none_of_short (records : List (List String)) (i : Nat)
    (h : records.length < i + 21) : decode records i = none := by
  cases hd : decode records i with
  | none => rfl
  | some d =>
    have hf := (decode_eq_some_iff records i d).mp hd
    unfold FieldsAt at hf
    have h20 := hf.2.2.2.2.2.2.2.2.2.2.2.2.2.2.2.2.2.2.2.2.2.2.2.2.2.2.2.2
    have := lt_length_of_cell_eq_some records (i + 20) 11 _ h20
    omega

/-- Whatever state the scan is in, the run as a whole ends the way the loop
ends from that state. -/
theorem extract_of_reaches (records : List (List String)) (s : ScanState)
    (h : Reaches records s) :
    extract records = extractLoop records (records.length - s.i) s := by
  induction h with
  | start => rfl
  | step hr hlt hb ih =>
    rename_i s s'
    have hcur := loopBody_cursor_lt records s s' hb
    have hfuel : records.length - s.i = (records.length - s.i - 1) + 1 := by omega
    rw [ih, hfuel, extractLoop]
    simp only [hlt, if_true, hb]
    exact extractLoop_fuel_irrel records _ _ s' (by omega) (by omega)

/-! ## Rendering -/

theorem indexEntry_erasePFact (d : DiveData) : indexEntry (erasePFact d) = indexEntry d := rfl

theorem diveSection_erasePFact (d : DiveData) : diveSection (erasePFact d) = diveSection d := rfl

theorem rangeDives_congr_map (body : DiveData → String) (f : DiveData → DiveData)
    (hf : ∀ d, body (f d) = body d) (ds : List DiveData) :
    rangeDives body (ds.map f) = rangeDives body ds := by
  induction ds with
  | nil => rfl
  | cons d ds ih => simp only [List.map_cons, rangeDives, hf, ih]

/-- The body of a `range` over a slice that contains `d` is written for `d`. -/
theorem rangeDives_of_mem (body : DiveData → String) (d : DiveData) (ds : List DiveData)
    (h : d ∈ ds) : ∃ pre post, rangeDives body ds = pre ++ body d ++ post := by
  induction ds with
  | nil => simp at h
  | cons e ds ih =>
    rcases List.mem_cons.mp h with h | h
    · subst h
      exact ⟨"", rangeDives body ds, by simp [rangeDives]⟩
    · obtain ⟨pre, post, hpp⟩ := ih h
      exact ⟨body e ++ pre, post, by simp [rangeDives, hpp, String.append_assoc]⟩

theorem main_of_extract (records : List (List String)) (dives : List DiveData) (now : String)
    (h : extract records = .done dives) :
    main records now
      = .done (execute { Title := "Dive Log", ModifiedTimeUTC := now, Dives := dives.reverse }) := by
  simp only [main, h, Outcome.andThen, reverseDives_eq_reverse]

/-! # The claims -/

/-- C1: at every cursor position where the scan finds the sentinel (cell 4 is
"Site", cell 9 is "Date") and the iteration succeeds, exactly one record is
appended, the cursor moves on by 23, and every field of that record is,
unmodified, the cell at its fixed coordinate relative to the cursor row. -/
theorem emitted_record_fields_are_cells (records : List (List String)) (s s' : ScanState)
    (h4 : cell records s.i 4 = some "Site") (h9 : cell records s.i 9 = some "Date")
    (hb : loopBody records s = some s') :
    ∃ d, s'.dives = s.dives ++ [d] ∧ s'.i = s.i + 23 ∧
      cell records s.i 1 = some d.Cardinal ∧
      cell records (s.i + 1) 4 = some d.Site ∧
      cell records (s.i + 1) 9 = some d.Date ∧
      cell records (s.i + 1) 12 = some d.Time ∧
      cell records (s.i + 4) 4 = some d.Duration ∧
      cell records (s.i + 4) 11 = some d.SuitType ∧
      cell records (s.i + 5) 4 = some d.MaxDepth ∧
      cell records (s.i + 5) 11 = some d.SuitThickness ∧
      cell records (s.i + 6) 4 = some d.AvgDepth ∧
      cell records (s.i + 6) 11 = some d.Weights ∧
      cell records (s.i + 7) 4 = some d.TankPressureStart ∧
      cell records (s.i + 7) 11 = some d.TankType ∧
      cell records (s.i + 8) 4 = some d.TankPressureEnd ∧
      cell records (s.i + 8) 11 = some d.TankVolume ∧
      cell records (s.i + 9) 4 = some d.DecompressionDive ∧
      cell records (s.i + 9) 11 = some d.Computer ∧
      cell records (s.i + 10) 4 = some d.Gas ∧
      cell records (s.i + 10) 11 = some d.DecoAlgPFact ∧
      cell records (s.i + 11) 4 = some d.O2 ∧
      cell records (s.i + 12) 4 = some d.CNS ∧
      cell records (s.i + 13) 4 = some d.Altitude ∧
      cell records (s.i + 13) 11 = some d.Weather ∧
      cell records (s.i + 14) 4 = some d.From ∧
      cell records (s.i + 14) 11 = some d.AirTemp ∧
      cell records (s.i + 17) 1 = some d.Operator ∧
      cell records (s.i + 17) 11 = some d.WaterType ∧
      cell records (s.i + 18) 11 = some d.WaterMinTemp ∧
      cell records (s.i + 19) 11 = some d.WaterVisibility ∧
      cell records (s.i + 20) 11 = some d.DriftDive := by
  have hs := (isSentinel_eq_some_true_iff records s.i).mpr ⟨h4, h9⟩
  unfold loopBody at hb
  simp only [hs] at hb
  cases hd : decode records s.i with
  | none => simp [hd] at hb
  | some d =>
    simp only [hd, Option.some.injEq] at hb
    subst hb
    exact ⟨d, rfl, rfl, (decode_eq_some_iff records s.i d).mp hd⟩

/-- C1, at the sample block: the iteration at row 0 appends the sample dive. -/
theorem emitted_record_fields_are_cells_witness :
    cell (sampleBlock "7" "Blue Hole") 0 4 = some "Site" ∧
    cell (sampleBlock "7" "Blue Hole") 0 9 = some "Date" ∧
    loopBody (sampleBlock "7" "Blue Hole") { i := 0, dives := [] }
      = some { i := 23, dives := [sampleDive "7" "Blue Hole"] } ∧
    ∃ d, [sampleDive "7" "Blue Hole"] = [] ++ [d] ∧ 23 = 0 + 23 ∧
      FieldsAt (sampleBlock "7" "Blue Hole") 0 d :=
  ⟨by decide, by decide, by decide,
    emitted_record_fields_are_cells (sampleBlock "7" "Blue Hole") { i := 0, dives := [] }
      { i := 23, dives := [sampleDive "7" "Blue Hole"] } (by decide) (by decide) (by decide)⟩

/-- C2: the swap loop returns the reversed slice, so the template is executed
against the extracted records in reverse order; for an input made of three
complete blocks decoding to `d1`, `d2`, `d3`, extraction yields `d1, d2, d3`
and the document lists the index entries and the sections in the order
`d3, d2, d1`. -/
theorem rendered_order_is_reverse_of_extraction
    (records : List (List String)) (dives : List DiveData) (now : String)
    (B1 B2 B3 : List (List String)) (d1 d2 d3 : DiveData)
    (hex : extract records = .done dives)
    (h1 : IsBlock B1 d1) (h2 : IsBlock B2 d2) (h3 : IsBlock B3 d3) :
    reverseDives dives = .done dives.reverse ∧
    main records now
      = .done (execute { Title := "Dive Log", ModifiedTimeUTC := now, Dives := dives.reverse }) ∧
    extract (B1 ++ (B2 ++ B3)) = .done [d1, d2, d3] ∧
    main (B1 ++ (B2 ++ B3)) now
      = .done (frontMatter { Title := "Dive Log", ModifiedTimeUTC := now, Dives := [d3, d2, d1] } ++
          (indexEntry d3 ++ (indexEntry d2 ++ indexEntry d1)) ++
          "\n" ++ "\n" ++ "## Dive Data\n" ++
          (diveSection d3 ++ (diveSection d2 ++ diveSection d1)) ++
          "\n") := by
  have h123 : extract (B1 ++ (B2 ++ B3)) = .done [d1, d2, d3] := by
    have hB3 := extract_block_append B3 [] d3 h3
    rw [List.append_nil] at hB3
    rw [extract_block_append B1 (B2 ++ B3) d1 h1, extract_block_append B2 B3 d2 h2, hB3]
    rfl
  refine ⟨reverseDives_eq_reverse dives, main_of_extract records dives now hex, h123, ?_⟩
  rw [main_of_extract _ _ now h123]
  simp [execute, rangeDives]

/-- C2, at three sample blocks `1, 2, 3`: the records are extracted as
`1, 2, 3`, reversed to `3, 2, 1`, and the template is executed on `3, 2, 1`. -/
theorem rendered_order_is_reverse_of_extraction_witness :
    extract (sampleBlock "1" "A" ++ (sampleBlock "2" "B" ++ sampleBlock "3" "C"))
      = .done [sampleDive "1" "A", sampleDive "2" "B", sampleDive "3" "C"] ∧
    IsBlock (sampleBlock "1" "A") (sampleDive "1" "A") ∧
    IsBlock (sampleBlock "2" "B") (sampleDive "2" "B") ∧
    IsBlock (sampleBlock "3" "C") (sampleDive "3" "C") ∧
    reverseDives [sampleDive "1" "A", sampleDive "2" "B", sampleDive "3" "C"]
      = .done [sampleDive "3" "C", sampleDive "2" "B", sampleDive "1" "A"] ∧
    main (sampleBlock "1" "A" ++ (sampleBlock "2" "B" ++ sampleBlock "3" "C"))
        "2024-05-01T10:00:00Z"
      = .done (execute { Title := "Dive Log", ModifiedTimeUTC := "2024-05-01T10:00:00Z",
                         Dives := [sampleDive "3" "C", sampleDive "2" "B", sampleDive "1" "A"] }) :=
  have h := rendered_order_is_reverse_of_extraction
    (sampleBlock "1" "A" ++ (sampleBlock "2" "B" ++ sampleBlock "3" "C"))
    [sampleDive "1" "A", sampleDive "2" "B", sampleDive "3" "C"] "2024-05-01T10:00:00Z"
    (sampleBlock "1" "A") (sampleBlock "2" "B") (sampleBlock "3" "C")
    (sampleDive "1" "A") (sampleDive "2" "B") (sampleDive "3" "C")
    (by decide!) (by decide) (by decide) (by decide)
  ⟨by decide!, by decide, by decide, by decide, h.1, h.2.1⟩

/-- C3, as stated, fails on a truncated block: the block-skipping scan finds
one sentinel position in the first 20 rows of a block, but extraction panics
and emits no record sequence at all. -/
theorem record_count_fails_on_truncated_block :
    blockStarts ((sampleBlock "1" "Blue Hole").take 20) = [0] ∧
    extract ((sampleBlock "1" "Blue Hole").take 20) = .panicked ∧
    ¬ ∃ dives, extract ((sampleBlock "1" "Blue Hole").take 20) = .done dives ∧
        dives.length = (blockStarts ((sampleBlock "1" "Blue Hole").take 20)).length := by
  have hp : extract ((sampleBlock "1" "Blue Hole").take 20) = .panicked := by decide
  refine ⟨by decide, hp, ?_⟩
  rintro ⟨dives, hd, _⟩
  rw [hp] at hd
  contradiction

/-- C3 (amended): whenever extraction completes, the number of emitted
records equals the number of positions the block-skipping scan reports; the
records are, in order, the decodings at those positions; every reported
position holds the sentinel; reported positions are at least 23 rows apart, so
blocks never overlap; and no row at offset 1..22 of a matched block is a
reported position, whatever it contains. -/
theorem record_count_matches_block_starts (records : List (List String))
    (dives : List DiveData) (h : extract records = .done dives) :
    dives.length = (blockStarts records).length ∧
    List.Forall₂ (fun p d => FieldsAt records p d) (blockStarts records) dives ∧
    (∀ p ∈ blockStarts records,
      cell records p 4 = some "Site" ∧ cell records p 9 = some "Date") ∧
    List.Pairwise (fun p q => p + 23 ≤ q) (blockStarts records) ∧
    (∀ p ∈ blockStarts records, ∀ k, 1 ≤ k → k ≤ 22 → p + k ∉ blockStarts records) := by
  obtain ⟨new, hnew, hall⟩ := extractLoop_done_spec records records.length 0 [] dives h
  simp only [List.nil_append, List.drop_zero] at hnew hall
  subst hnew
  have hpair := blockStartsFrom_pairwise records 0 0
  refine ⟨hall.length_eq.symm, hall, ?_, hpair, ?_⟩
  · intro p hp
    obtain ⟨row, hrow, hsent⟩ := blockStartsFrom_sentinel records 0 0 p hp
    simp only [Nat.sub_zero] at hrow
    simp only [sentinelRow, decide_eq_true_eq] at hsent
    simp [cell, hrow, hsent.1, hsent.2]
  · intro p hp k hk1 hk22 hq
    have hsym : List.Pairwise (fun a b => a + 23 ≤ b ∨ b + 23 ≤ a) (blockStarts records) :=
      hpair.imp (fun hab => Or.inl hab)
    have hne : p ≠ p + k := by omega
    have := hsym.forall (fun a b hab => hab.symm) hp hq hne
    omega

/-- C3 (amended), at a block whose row 2 is itself a sentinel row, followed by
a second block: two records, two reported positions. -/
theorem record_count_matches_block_starts_witness :
    extract (nestedBlock "1" "A" ++ sampleBlock "2" "B")
      = .done [sampleDive "1" "A", sampleDive "2" "B"] ∧
    cell (nestedBlock "1" "A" ++ sampleBlock "2" "B") 2 4 = some "Site" ∧
    cell (nestedBlock "1" "A" ++ sampleBlock "2" "B") 2 9 = some "Date" ∧
    blockStarts (nestedBlock "1" "A" ++ sampleBlock "2" "B") = [0, 23] ∧
    [sampleDive "1" "A", sampleDive "2" "B"].length
      = (blockStarts (nestedBlock "1" "A" ++ sampleBlock "2" "B")).length :=
  ⟨by decide, by decide, by decide, by decide,
    (record_count_matches_block_starts (nestedBlock "1" "A" ++ sampleBlock "2" "B")
      [sampleDive "1" "A", sampleDive "2" "B"] (by decide)).1⟩

/-- C4, as stated, fails for a row too short to be tested: the one-cell row
does not satisfy the sentinel condition, yet extraction of that row alone
panics (cell 4 does not exist) while extraction of no rows returns no records. -/
theorem short_row_is_not_skipped :
    sentinelRow ["x"] = false ∧
    extract (["x"] :: []) = .panicked ∧
    extract [] = .done [] ∧
    extract (["x"] :: []) ≠ extract [] := by
  decide

/-- C4 (amended): a row on which the sentinel test can be evaluated (at least
5 cells, and at least 10 cells when cell 4 is "Site") and that does not
satisfy the sentinel condition is skipped: extraction of the row followed by
`rows` gives exactly the result of extracting `rows`. -/
theorem non_sentinel_row_is_skipped (r : List String) (rows : List (List String))
    (h5 : 5 ≤ r.length) (h10 : r[4]? = some "Site" → 10 ≤ r.length)
    (hns : sentinelRow r = false) :
    extract (r :: rows) = extract rows := by
  have hs : isSentinel (r :: rows) 0 = some false := by
    have h4 : r[4]? = some (r[4]) := List.getElem?_eq_getElem (by omega)
    simp only [isSentinel, cell, List.getElem?_cons_zero, h4]
    by_cases hsite : r[4] = "Site"
    · have hlen := h10 (by rw [h4, hsite])
      have h9 : r[9]? = some (r[9]) := List.getElem?_eq_getElem (by omega)
      simp only [sentinelRow, h4, h9, hsite, Option.some.injEq, true_and,
        decide_eq_false_iff_not] at hns
      simp [hsite, h9, hns]
    · simp [hsite]
  have hbody : loopBody (r :: rows) { i := 0, dives := [] } = some { i := 1, dives := [] } := by
    simp [loopBody, hs]
  have hshift := extractLoop_append_add [r] rows rows.length 0 []
  simp only [List.singleton_append, List.length_singleton, Nat.add_zero] at hshift
  unfold extract
  rw [List.length_cons, extractLoop]
  simp only [List.length_cons, Nat.zero_lt_succ, if_true, hbody]
  exact hshift

/-- C4 (amended), at a blank row in front of the sample block. -/
theorem non_sentinel_row_is_skipped_witness :
    5 ≤ blankRow.length ∧
    (blankRow[4]? = some "Site" → 10 ≤ blankRow.length) ∧
    sentinelRow blankRow = false ∧
    extract (sampleBlock "1" "Blue Hole") = .done [sampleDive "1" "Blue Hole"] ∧
    extract (blankRow :: sampleBlock "1" "Blue Hole") = extract (sampleBlock "1" "Blue Hole") :=
  ⟨by decide, by decide, by decide, by decide,
    non_sentinel_row_is_skipped blankRow (sampleBlock "1" "Blue Hole")
      (by decide) (by decide) (by decide)⟩

/-- C5, as stated, fails when 21 rows remain: the scan finds the sentinel at
cursor 0 of a 21-row input, the 23-row span runs past the end, and yet the
record is decoded and emitted, because the last row read is row 20. -/
theorem block_of_21_rows_is_decoded :
    ((sampleBlock "1" "Blue Hole").take 21).length = 21 ∧
    cell ((sampleBlock "1" "Blue Hole").take 21) 0 4 = some "Site" ∧
    cell ((sampleBlock "1" "Blue Hole").take 21) 0 9 = some "Date" ∧
    0 + 23 > ((sampleBlock "1" "Blue Hole").take 21).length ∧
    extract ((sampleBlock "1" "Blue Hole").take 21) = .done [sampleDive "1" "Blue Hole"] := by
  decide

/-- C5 (amended): when the scan finds the sentinel at a cursor position with
fewer than 21 rows from it to the end of the input, the run panics: the rows
up to offset 20 are read, and one of them does not exist. -/
theorem truncated_block_panics (records : List (List String)) (s : ScanState)
    (hr : Reaches records s)
    (h4 : cell records s.i 4 = some "Site") (h9 : cell records s.i 9 = some "Date")
    (hshort : records.length < s.i + 21) :
    loopBody records s = none ∧ extract records = .panicked := by
  have hs := (isSentinel_eq_some_true_iff records s.i).mpr ⟨h4, h9⟩
  have hd := decode_eq_none_of_short records s.i hshort
  have hbody : loopBody records s = none := by simp [loopBody, hs, hd]
  have hlt := lt_length_of_cell_eq_some records s.i 4 _ h4
  have hfuel : records.length - s.i = (records.length - s.i - 1) + 1 := by omega
  refine ⟨hbody, ?_⟩
  rw [extract_of_reaches records s hr, hfuel, extractLoop]
  simp [hlt, hbody]

/-- C5 (amended), at the first 20 rows of the sample block. -/
theorem truncated_block_panics_witness :
    cell ((sampleBlock "1" "Blue Hole").take 20) 0 4 = some "Site" ∧
    cell ((sampleBlock "1" "Blue Hole").take 20) 0 9 = some "Date" ∧
    ((sampleBlock "1" "Blue Hole").take 20).length < 0 + 21 ∧
    loopBody ((sampleBlock "1" "Blue Hole").take 20) { i := 0, dives := [] } = none ∧
    extract ((sampleBlock "1" "Blue Hole").take 20) = .panicked :=
  ⟨by decide, by decide, by decide,
    truncated_block_panics ((sampleBlock "1" "Blue Hole").take 20) { i := 0, dives := [] }
      Reaches.start (by decide) (by decide) (by decide)⟩

/-- C6: the suit row of a record is `| Suit | SuitType |` when the suit type
is exactly "Dry suit" and `| Suit | SuitType SuitThickness mm |` for every
other suit type, a different case or surrounding blanks included; in the
document the row stands in the table of every rendered record, between the
operator row and the weights row. -/
theorem suit_row_rendering (data : TemplateData) (d : DiveData) (hd : d ∈ data.Dives) :
    suitRow d = (if d.SuitType = "Dry suit" then "| Suit | " ++ d.SuitType ++ " |"
                 else "| Suit | " ++ d.SuitType ++ " " ++ d.SuitThickness ++ " mm |") ∧
    suitRow { d with SuitType := "Dry suit" } = "| Suit | Dry suit |" ∧
    suitRow { d with SuitType := "dry suit" } = "| Suit | dry suit " ++ d.SuitThickness ++ " mm |" ∧
    suitRow { d with SuitType := " Dry suit " }
      = "| Suit |  Dry suit  " ++ d.SuitThickness ++ " mm |" ∧
    ∃ pre post, execute data
      = pre ++ (rowsBeforeSuit d ++ suitRow d ++ "\n" ++ rowsAfterSuit d) ++ post := by
  refine ⟨?_, ?_, ?_, ?_, ?_⟩
  · unfold suitRow
    by_cases h : d.SuitType = "Dry suit"
    · simp [h]
    · simp [h, String.append_assoc]
  · rfl
  · have hne : ¬ ("dry suit" = "Dry suit") := by decide
    simp only [suitRow, ne_eq, hne, not_false_eq_true, if_true, String.append_assoc]
    rfl
  · have hne : ¬ (" Dry suit " = "Dry suit") := by decide
    simp only [suitRow, ne_eq, hne, not_false_eq_true, if_true, String.append_assoc]
    rfl
  · obtain ⟨pre, post, hpp⟩ := rangeDives_of_mem diveSection d data.Dives hd
    refine ⟨frontMatter data ++ rangeDives indexEntry data.Dives ++ "\n" ++ "\n" ++
      "## Dive Data\n" ++ pre ++ "\n" ++ headingLine d ++ "\n" ++ "\n", post ++ "\n", ?_⟩
    simp only [execute, hpp, diveSection, String.append_assoc]

/-- C6, at a dry-suit record rendered alone: the thickness "7" is stored but
the row is `| Suit | Dry suit |`. -/
theorem suit_row_rendering_witness :
    { sampleDive "1" "A" with SuitType := "Dry suit", SuitThickness := "7" }
      ∈ [{ sampleDive "1" "A" with SuitType := "Dry suit", SuitThickness := "7" }] ∧
    suitRow { sampleDive "1" "A" with SuitType := "Dry suit", SuitThickness := "7" }
      = "| Suit | Dry suit |" ∧
    suitRow { sampleDive "1" "A" with SuitType := "dry suit", SuitThickness := "7" }
      = "| Suit | dry suit 7 mm |" :=
  ⟨by decide,
    (suit_row_rendering
      { Title := "Dive Log", ModifiedTimeUTC := "2024-05-01T10:00:00Z",
        Dives := [{ sampleDive "1" "A" with SuitType := "Dry suit", SuitThickness := "7" }] }
      { sampleDive "1" "A" with SuitType := "Dry suit", SuitThickness := "7" }
      (by decide)).2.1,
    (suit_row_rendering
      { Title := "Dive Log", ModifiedTimeUTC := "2024-05-01T10:00:00Z",
        Dives := [{ sampleDive "1" "A" with SuitType := "Dry suit", SuitThickness := "7" }] }
      { sampleDive "1" "A" with SuitType := "Dry suit", SuitThickness := "7" }
      (by decide)).2.2.1⟩

/-- C7: the p-factor is read from row `i + 10`, cell 11 into `DecoAlgPFact`,
and the rendered document is the same for any two record sequences that agree
once `DecoAlgPFact` is disregarded, whatever the title and the timestamp. -/
theorem pfact_stored_but_not_rendered (records : List (List String)) (i : Nat) (d : DiveData)
    (title now : String) (ds1 ds2 : List DiveData)
    (hd : decode records i = some d)
    (h : ds1.map erasePFact = ds2.map erasePFact) :
    cell records (i + 10) 11 = some d.DecoAlgPFact ∧
    execute { Title := title, ModifiedTimeUTC := now, Dives := ds1 }
      = execute { Title := title, ModifiedTimeUTC := now, Dives := ds2 } := by
  have hf := (decode_eq_some_iff records i d).mp hd
  unfold FieldsAt at hf
  refine ⟨hf.2.2.2.2.2.2.2.2.2.2.2.2.2.2.2.2.2.1, ?_⟩
  have hidx : rangeDives indexEntry ds1 = rangeDives indexEntry ds2 := by
    rw [← rangeDives_congr_map indexEntry erasePFact indexEntry_erasePFact ds1,
      ← rangeDives_congr_map indexEntry erasePFact indexEntry_erasePFact ds2, h]
  have hsec : rangeDives diveSection ds1 = rangeDives diveSection ds2 := by
    rw [← rangeDives_congr_map diveSection erasePFact diveSection_erasePFact ds1,
      ← rangeDives_congr_map diveSection erasePFact diveSection_erasePFact ds2, h]
  simp only [execute, hidx, hsec, frontMatter]

/-- C7, at the sample block and at two records that differ in the p-factor only. -/
theorem pfact_stored_but_not_rendered_witness :
    decode (sampleBlock "1" "A") 0 = some (sampleDive "1" "A") ∧
    [sampleDive "1" "A"].map erasePFact
      = [{ sampleDive "1" "A" with DecoAlgPFact := "0.9" }].map erasePFact ∧
    sampleDive "1" "A" ≠ { sampleDive "1" "A" with DecoAlgPFact := "0.9" } ∧
    cell (sampleBlock "1" "A") (0 + 10) 11 = some (sampleDive "1" "A").DecoAlgPFact ∧
    execute { Title := "Dive Log", ModifiedTimeUTC := "2024-05-01T10:00:00Z",
              Dives := [sampleDive "1" "A"] }
      = execute { Title := "Dive Log", ModifiedTimeUTC := "2024-05-01T10:00:00Z",
                  Dives := [{ sampleDive "1" "A" with DecoAlgPFact := "0.9" }] } :=
  ⟨by decide, by decide, by decide,
    pfact_stored_but_not_rendered (sampleBlock "1" "A") 0 (sampleDive "1" "A")
      "Dive Log" "2024-05-01T10:00:00Z" [sampleDive "1" "A"]
      [{ sampleDive "1" "A" with DecoAlgPFact := "0.9" }] (by decide) (by decide)⟩

/-- C8: running the reversal loop on its own result gives back the original
sequence, the same records in the same order. -/
theorem reversal_twice_restores (dives : List DiveData) :
    (reverseDives dives).andThen reverseDives = .done dives := by
  simp [reverseDives_eq_reverse, Outcome.andThen]

/-- C9: an input that is one 23-row block with "Site" and "Date" in cells 4
and 9 of its first row, "1" in cell 1, "Blue Hole" and "2023-01-01" in cells 4
and 9 of its second row, and all other read cells present, yields exactly one
record, and the document has the index entry for it as a line of its own and
the section heading anchored `no-1` as a line of its own. -/
theorem one_block_end_to_end (records : List (List String)) (now : String)
    (hlen : records.length = 23)
    (h04 : cell records 0 4 = some "Site") (h09 : cell records 0 9 = some "Date")
    (h01 : cell records 0 1 = some "1")
    (h14 : cell records 1 4 = some "Blue Hole") (h19 : cell records 1 9 = some "2023-01-01")
    (hall : ∀ rc ∈ readCoords, (cell records rc.1 rc.2).isSome = true) :
    ∃ d doc, extract records = .done [d] ∧
      d.Cardinal = "1" ∧ d.Site = "Blue Hole" ∧ d.Date = "2023-01-01" ∧
      main records now = .done doc ∧
      (∃ pre post, doc
        = pre ++ "\n" ++ "- **[No. 1: Blue Hole, 2023-01-01.](#no-1)**" ++ "\n" ++ post) ∧
      (∃ pre post, doc
        = pre ++ "\n" ++ "### <a id=\"no-1\"></a>No. 1: Blue Hole, 2023-01-01." ++ "\n" ++ post) := by
  obtain ⟨d, hd⟩ := decode_isSome_of_coords records 0 (by simpa using hall)
  have hf := (decode_eq_some_iff records 0 d).mp hd
  unfold FieldsAt at hf
  simp only [Nat.zero_add] at hf
  have hcard : d.Cardinal = "1" := by
    have := hf.1
    rw [h01] at this
    exact (Option.some.inj this).symm
  have hsite : d.Site = "Blue Hole" := by
    have := hf.2.1
    rw [h14] at this
    exact (Option.some.inj this).symm
  have hdate : d.Date = "2023-01-01" := by
    have := hf.2.2.1
    rw [h19] at this
    exact (Option.some.inj this).symm
  have hs := (isSentinel_eq_some_true_iff records 0).mpr ⟨h04, h09⟩
  have hbody : loopBody records { i := 0, dives := [] } = some { i := 23, dives := [d] } := by
    simp [loopBody, hs, hd]
  have hex : extract records = .done [d] := by
    unfold extract
    rw [hlen]
    show extractLoop records (22 + 1) { i := 0, dives := [] } = .done [d]
    rw [extractLoop]
    simp only [hlen, Nat.zero_lt_succ, if_true, hbody]
    cases (22 : Nat) <;> simp [extractLoop, hlen]
  have hline : indexLine d = "- **[No. 1: Blue Hole, 2023-01-01.](#no-1)**" := by
    simp only [indexLine, hcard, hsite, hdate]
    decide
  have hhead : headingLine d = "### <a id=\"no-1\"></a>No. 1: Blue Hole, 2023-01-01." := by
    simp only [headingLine, hcard, hsite, hdate]
    decide
  refine ⟨d, _, hex, hcard, hsite, hdate, main_of_extract records [d] now hex, ?_, ?_⟩
  · refine ⟨frontMatter { Title := "Dive Log", ModifiedTimeUTC := now, Dives := [d] },
      "\n" ++ "## Dive Data\n" ++ diveSection d ++ "\n", ?_⟩
    rw [← hline]
    simp only [execute, List.reverse_singleton, rangeDives, indexEntry, String.append_assoc,
      String.append_empty, String.empty_append]
  · refine ⟨frontMatter { Title := "Dive Log", ModifiedTimeUTC := now, Dives := [d] } ++
        indexEntry d ++ "\n" ++ "\n" ++ "## Dive Data\n",
      "\n" ++ rowsBeforeSuit d ++ suitRow d ++ "\n" ++ rowsAfterSuit d ++ "\n", ?_⟩
    rw [← hhead]
    simp only [execute, List.reverse_singleton, rangeDives, diveSection, String.append_assoc,
      String.append_empty, String.empty_append]

/-- C9, at the sample block for dive 1 at Blue Hole. -/
theorem one_block_end_to_end_witness :
    (sampleBlock "1" "Blue Hole").length = 23 ∧
    (∀ rc ∈ readCoords, (cell (sampleBlock "1" "Blue Hole") rc.1 rc.2).isSome = true) ∧
    ∃ d doc, extract (sampleBlock "1" "Blue Hole") = .done [d] ∧
      d.Cardinal = "1" ∧ d.Site = "Blue Hole" ∧ d.Date = "2023-01-01" ∧
      main (sampleBlock "1" "Blue Hole") "2024-05-01T10:00:00Z" = .done doc ∧
      (∃ pre post, doc
        = pre ++ "\n" ++ "- **[No. 1: Blue Hole, 2023-01-01.](#no-1)**" ++ "\n" ++ post) ∧
      (∃ pre post, doc
        = pre ++ "\n" ++ "### <a id=\"no-1\"></a>No. 1: Blue Hole, 2023-01-01." ++ "\n" ++ post) :=
  ⟨by decide, by decide,
    one_block_end_to_end (sampleBlock "1" "Blue Hole") "2024-05-01T10:00:00Z"
      (by decide) (by decide) (by decide) (by decide) (by decide) (by decide) (by decide)⟩

/-- C10: for the empty input extraction returns no records without failing,
and the document is the front matter (tags, title, comment, created,
modified), the title heading, the index heading with no entry under it and
the dive-data heading with no section under it. -/
theorem empty_input_document (now : String) :
    extract [] = .done [] ∧
    main [] now = .done (
      "---\n" ++
      "tags: [diving, my]\n" ++
      "title: Dive Log\n" ++
      "comment: \x27This document is auto-generated from the master dive log using https://github.com/cicovic-andrija/dlconv.\x27\n" ++
      "created: \x272023-04-16T20:36:59.779Z\x27\n" ++
      "modified: \x27" ++ now ++ "\x27\n" ++
      "---\n" ++
      "\n" ++
      "# Dive Log\n" ++
      "\n" ++
      "## Index\n" ++
      "\n" ++
      "\n" ++
      "## Dive Data\n" ++
      "\n") := by
  refine ⟨rfl, ?_⟩
  have hex : extract [] = .done [] := rfl
  rw [main_of_extract [] [] now hex]
  simp only [execute, frontMatter, List.reverse_nil, rangeDives, String.append_assoc,
    String.append_empty, String.empty_append]
  rfl

/-- C11, evaluated where it fails: with the output file created and
`t.Execute` returning the error `e`, the run ends normally, the error
dropped; a failed `os.Create`, the statement before it, does panic. -/
theorem execute_error_is_discarded (e now : String) :
    mainWithOutput [] now { createErr := none, executeErr := some e } = .done () ∧
    mainWithOutput [] now { createErr := none, executeErr := none } = .done () ∧
    mainWithOutput [] now { createErr := some e, executeErr := none } = .panicked := by
  refine ⟨rfl, rfl, rfl⟩

/-- Extraction of complete blocks laid end to end returns their records in
the order of the blocks. -/
theorem extract_join_blocks (blocks : List (List (List String))) (ds : List DiveData)
    (h : List.Forall₂ IsBlock blocks ds) : extract blocks.flatten = .done ds := by
  induction h with
  | nil => rfl
  | cons hb _ ih =>
    rw [List.flatten_cons, extract_block_append _ _ _ hb, ih]
    rfl

/-- C12: for a complete block `B` (exactly 23 rows, the sentinel in its first
row, every read coordinate present) and any rows `R`, the iteration at the
first row of `B ++ R` appends the record decoded from `B` and moves the
cursor by 23, and extraction of `B ++ R` is that record followed by the
extraction of `R`; so complete blocks laid end to end are extracted in input
order. -/
theorem block_then_rest (B R : List (List String))
    (hlen : B.length = 23)
    (h4 : cell B 0 4 = some "Site") (h9 : cell B 0 9 = some "Date")
    (hall : ∀ rc ∈ readCoords, (cell B rc.1 rc.2).isSome = true) :
    ∃ d, decode B 0 = some d ∧
      loopBody (B ++ R) { i := 0, dives := [] } = some { i := 0 + 23, dives := [d] } ∧
      extract (B ++ R) = (extract R).map (fun out => d :: out) ∧
      (∀ out, extract R = .done out → extract (B ++ R) = .done (d :: out)) ∧
      (∀ blocks ds, List.Forall₂ IsBlock blocks ds →
        extract (B ++ blocks.flatten) = .done (d :: ds)) := by
  obtain ⟨d, hd⟩ := decode_isSome_of_coords B 0 (by simpa using hall)
  have hblock : IsBlock B d := ⟨hlen, h4, h9, (decode_eq_some_iff B 0 d).mp hd⟩
  have hext := extract_block_append B R d hblock
  refine ⟨d, hd, ?_, hext, ?_, ?_⟩
  · simpa using loopBody_block B R d [] hblock
  · intro out hout
    rw [hext, hout]
    rfl
  · intro blocks ds hbs
    rw [extract_block_append B _ d hblock, extract_join_blocks blocks ds hbs]
    rfl

/-- C12, at the sample block for dive 1 followed by the sample block for
dive 2. -/
theorem block_then_rest_witness :
    (sampleBlock "1" "A").length = 23 ∧
    cell (sampleBlock "1" "A") 0 4 = some "Site" ∧
    cell (sampleBlock "1" "A") 0 9 = some "Date" ∧
    (∀ rc ∈ readCoords, (cell (sampleBlock "1" "A") rc.1 rc.2).isSome = true) ∧
    extract (sampleBlock "2" "B") = .done [sampleDive "2" "B"] ∧
    ∃ d, decode (sampleBlock "1" "A") 0 = some d ∧
      loopBody (sampleBlock "1" "A" ++ sampleBlock "2" "B") { i := 0, dives := [] }
        = some { i := 0 + 23, dives := [d] } ∧
      extract (sampleBlock "1" "A" ++ sampleBlock "2" "B")
        = (extract (sampleBlock "2" "B")).map (fun out => d :: out) ∧
      (∀ out, extract (sampleBlock "2" "B") = .done out →
        extract (sampleBlock "1" "A" ++ sampleBlock "2" "B") = .done (d :: out)) ∧
      (∀ blocks ds, List.Forall₂ IsBlock blocks ds →
        extract (sampleBlock "1" "A" ++ blocks.flatten) = .done (d :: ds)) :=
  ⟨by decide, by decide, by decide, by decide, by decide,
    block_then_rest (sampleBlock "1" "A") (sampleBlock "2" "B")
      (by decide) (by decide) (by decide) (by decide)⟩

/-- A successful decoding has found every coordinate of the literal. -/
theorem coords_isSome_of_decode (records : List (List String)) (i : Nat) (d : DiveData)
    (h : decode records i = some d) :
    ∀ rc ∈ readCoords, (cell records (i + rc.1) rc.2).isSome = true := by
  have hf := (decode_eq_some_iff records i d).mp h
  unfold FieldsAt at hf
  obtain ⟨h1, h2, h3, h4, h5, h6, h7, h8, h9, h10, h11, h12, h13, h14, h15, h16, h17, h18, h19, h20, h21, h22, h23, h24, h25, h26, h27, h28, h29⟩ := hf
  intro rc hrc
  simp only [readCoords, List.mem_cons, List.mem_singleton, List.not_mem_nil, or_false] at hrc
  rcases hrc with rfl | rfl | rfl | rfl | rfl | rfl | rfl | rfl | rfl | rfl | rfl | rfl | rfl | rfl | rfl | rfl | rfl | rfl | rfl | rfl | rfl | rfl | rfl | rfl | rfl | rfl | rfl | rfl | rfl
  all_goals simp [*]

/-- Every record of a completed extraction has all its fields, each read from
an existing cell of one block. -/
theorem emitted_records_are_complete (records : List (List String)) (dives : List DiveData)
    (h : extract records = .done dives) :
    ∀ d ∈ dives, ∃ p, FieldsAt records p d := by
  obtain ⟨new, hnew, hall⟩ := extractLoop_done_spec records records.length 0 [] dives h
  simp only [List.nil_append] at hnew
  subst hnew
  intro d hd
  have key : ∀ (ps : List Nat) (ds : List DiveData),
      List.Forall₂ (fun p d => FieldsAt records p d) ps ds →
        ∀ d ∈ ds, ∃ p, FieldsAt records p d := by
    intro ps ds hf
    induction hf with
    | nil => intro d hd; simp at hd
    | cons hpd _ ih =>
      intro d hd
      rcases List.mem_cons.mp hd with hd | hd
      · subst hd
        exact ⟨_, hpd⟩
      · exact ih d hd
  exact key _ _ hall d hd

/-- C13: when the scan is at the first row of a matched block and some
coordinate the literal reads lies in a row of the block that is too short for
its column, the iteration panics, the run yields no record sequence and
nothing is rendered, the records of earlier blocks included; and on every run
that does complete, each emitted record has all of its fields, read from
existing cells. -/
theorem short_row_in_block_aborts_run (records : List (List String)) (s : ScanState)
    (now : String) (k c : Nat) (row : List String)
    (hr : Reaches records s)
    (h4 : cell records s.i 4 = some "Site") (h9 : cell records s.i 9 = some "Date")
    (hrc : (k, c) ∈ readCoords)
    (hrow : records[s.i + k]? = some row) (hshort : row.length ≤ c) :
    loopBody records s = none ∧
    extract records = .panicked ∧
    (∀ dives, extract records ≠ .done dives) ∧
    main records now = .panicked ∧
    (∀ (records' : List (List String)) (dives : List DiveData),
      extract records' = .done dives → ∀ d ∈ dives, ∃ p, FieldsAt records' p d) := by
  have hs := (isSentinel_eq_some_true_iff records s.i).mpr ⟨h4, h9⟩
  have hcell : cell records (s.i + k) c = none := by
    simp [cell, hrow, List.getElem?_eq_none hshort]
  have hd : decode records s.i = none := by
    cases hdec : decode records s.i with
    | none => rfl
    | some d =>
      have := coords_isSome_of_decode records s.i d hdec (k, c) hrc
      simp [hcell] at this
  have hbody : loopBody records s = none := by simp [loopBody, hs, hd]
  have hlt := lt_length_of_cell_eq_some records s.i 4 _ h4
  have hfuel : records.length - s.i = (records.length - s.i - 1) + 1 := by omega
  have hex : extract records = .panicked := by
    rw [extract_of_reaches records s hr, hfuel, extractLoop]
    simp [hlt, hbody]
  refine ⟨hbody, hex, ?_, ?_, emitted_records_are_complete⟩
  · intro dives hdone
    rw [hex] at hdone
    contradiction
  · simp [main, hex, Outcome.andThen]

/-- C13, at a complete block followed by a block whose row 5 has five cells:
the scan reaches the second block with one record appended, and the run
panics. -/
theorem short_row_in_block_aborts_run_witness :
    Reaches (sampleBlock "1" "A" ++ shortRowBlock "2" "B")
      { i := 23, dives := [sampleDive "1" "A"] } ∧
    cell (sampleBlock "1" "A" ++ shortRowBlock "2" "B") 23 4 = some "Site" ∧
    cell (sampleBlock "1" "A" ++ shortRowBlock "2" "B") 23 9 = some "Date" ∧
    (5, 11) ∈ readCoords ∧
    (sampleBlock "1" "A" ++ shortRowBlock "2" "B")[23 + 5]? = some ["", "", "", "", "18.2"] ∧
    ["", "", "", "", "18.2"].length ≤ 11 ∧
    extract (sampleBlock "1" "A" ++ shortRowBlock "2" "B") = .panicked ∧
    main (sampleBlock "1" "A" ++ shortRowBlock "2" "B") "2024-05-01T10:00:00Z" = .panicked :=
  have hr : Reaches (sampleBlock "1" "A" ++ shortRowBlock "2" "B")
      { i := 23, dives := [sampleDive "1" "A"] } :=
    Reaches.step Reaches.start (by decide) (by decide!)
  have h := short_row_in_block_aborts_run (sampleBlock "1" "A" ++ shortRowBlock "2" "B")
    { i := 23, dives := [sampleDive "1" "A"] } "2024-05-01T10:00:00Z" 5 11
    ["", "", "", "", "18.2"] hr (by decide) (by decide) (by decide) (by decide) (by decide)
  ⟨hr, by decide, by decide, by decide, by decide, by decide, h.2.1, h.2.2.2.1⟩

/-! ## Reversal: which swaps the loop performs -/

/-- With the pointers around `mid`, the loop swaps at the pointer pairs
`(|pre| + k, |pre| + |mid| - 1 - k)` for `k` below half the length of `mid`. -/
theorem swapTrace_append (fuel : Nat) :
    ∀ (mid pre post : List DiveData), mid.length ≤ 2 * fuel + 1 →
      swapTrace fuel { dives := pre ++ (mid ++ post), i := (pre.length : Int),
                       j := (pre.length : Int) + (mid.length : Int) - 1 }
        = (List.range (mid.length / 2)).map
            (fun (k : Nat) => ((pre.length : Int) + (k : Int),
                       (pre.length : Int) + (mid.length : Int) - 1 - (k : Int))) := by
  induction fuel with
  | zero =>
    intro mid pre post hlen
    match mid, hlen with
    | [], _ => simp [swapTrace]
    | [a], _ => simp [swapTrace]
  | succ fuel ih =>
    intro mid pre post hlen
    match mid, hlen with
    | [], _ => simp [swapTrace]
    | [a], _ => simp [swapTrace]
    | a :: c :: rest, hlen =>
      obtain ⟨mid', b, hmid⟩ : ∃ mid' b, c :: rest = mid' ++ [b] := by
        rcases List.eq_nil_or_concat (c :: rest) with h | ⟨L, b, h⟩
        · exact absurd h (by simp)
        · exact ⟨L, b, by simpa using h⟩
      rw [hmid]
      have hlen' : mid'.length ≤ 2 * fuel + 1 := by
        have : (c :: rest).length = mid'.length + 1 := by rw [hmid]; simp
        simp only [List.length_cons] at hlen this
        omega
      have hmidlen : (a :: (mid' ++ [b])).length = mid'.length + 2 := by simp
      have hj : (pre.length : Int) + ((a :: (mid' ++ [b])).length : Int) - 1
          = ((pre.length + (mid'.length + 1) : Nat) : Int) := by
        rw [hmidlen]
        push_cast
        omega
      have hlt : (pre.length : Int) < ((pre.length + (mid'.length + 1) : Nat) : Int) := by
        push_cast
        omega
      have hdives : pre ++ (a :: (mid' ++ [b]) ++ post) = pre ++ a :: (mid' ++ b :: post) := by
        simp
      have hhalf : (mid'.length + 2) / 2 = mid'.length / 2 + 1 := by omega
      have hst : ({ dives := pre ++ b :: (mid' ++ a :: post), i := (pre.length : Int) + 1,
                    j := ((pre.length + (mid'.length + 1) : Nat) : Int) - 1 } : SwapState)
          = { dives := (pre ++ [b]) ++ (mid' ++ a :: post), i := ((pre ++ [b]).length : Int),
              j := ((pre ++ [b]).length : Int) + (mid'.length : Int) - 1 } := by
        simp only [List.length_append, List.length_cons, List.length_nil, List.append_assoc,
          List.singleton_append]
        congr 1
        push_cast
        omega
      have hnext := ih mid' (pre ++ [b]) (a :: post) hlen'
      rw [hmidlen, hhalf, List.range_succ_eq_map, List.map_cons, List.map_map]
      have hj' : (pre.length : Int) + ((mid'.length + 2 : Nat) : Int) - 1
          = ((pre.length + (mid'.length + 1) : Nat) : Int) := by
        push_cast
        omega
      rw [hdives, hj', swapTrace]
      simp only [hlt, if_true, swapBody_append]
      rw [hst, hnext]
      congr 1
      simp only [List.map_inj_left, Function.comp, List.length_append, List.length_cons,
        List.length_nil, Prod.mk.injEq]
      intro k _
      constructor <;> push_cast <;> omega

/-- The number of swaps and their positions, for the loop as `main` starts it. -/
theorem swapTrace_reverseDives (dives : List DiveData) :
    swapTrace dives.length { dives := dives, i := 0, j := (dives.length : Int) - 1 }
      = (List.range (dives.length / 2)).map
          (fun (k : Nat) => ((k : Int), (dives.length : Int) - 1 - (k : Int))) := by
  have h := swapTrace_append dives.length dives [] [] (by omega)
  simpa using h

theorem diveAt_eq_some_iff (dives : List DiveData) (k : Int) (d : DiveData) :
    diveAt dives k = some d ↔ 0 ≤ k ∧ dives[k.toNat]? = some d := by
  unfold diveAt
  by_cases hk : k < 0
  · simp [hk]
  · simp only [hk, if_false]
    constructor
    · intro h
      exact ⟨by omega, h⟩
    · intro h
      exact h.2

theorem swapBody_effect (s s' : SwapState) (h : swapBody s = some s') :
    s'.i = s.i + 1 ∧ s'.j = s.j - 1 ∧
    diveAt s'.dives s.i = diveAt s.dives s.j ∧
    diveAt s'.dives s.j = diveAt s.dives s.i ∧
    (∀ p, p ≠ s.i → p ≠ s.j → diveAt s'.dives p = diveAt s.dives p) := by
  unfold swapBody at h
  split at h
  · contradiction
  · rename_i dj hdj
    split at h
    · contradiction
    · rename_i di hdi
      simp only [Option.some.injEq] at h
      subst h
      obtain ⟨hj0, hj⟩ := (diveAt_eq_some_iff _ _ _).mp hdj
      obtain ⟨hi0, hi⟩ := (diveAt_eq_some_iff _ _ _).mp hdi
      have hjlt : s.j.toNat < s.dives.length := by
        by_contra hge
        rw [List.getElem?_eq_none (by omega)] at hj
        contradiction
      have hilt : s.i.toNat < s.dives.length := by
        by_contra hge
        rw [List.getElem?_eq_none (by omega)] at hi
        contradiction
      refine ⟨rfl, rfl, ?_, ?_, ?_⟩
      · rw [hdj]
        apply (diveAt_eq_some_iff _ _ _).mpr
        refine ⟨hi0, ?_⟩
        simp only [List.getElem?_set, List.length_set, hilt, hjlt, if_true]
        by_cases hij : s.j.toNat = s.i.toNat
        · rw [hij] at hj
          rw [hi] at hj
          simp [hij, hj]
        · simp [hij]
      · rw [hdi]
        apply (diveAt_eq_some_iff _ _ _).mpr
        refine ⟨hj0, ?_⟩
        simp only [List.getElem?_set, List.length_set, hjlt, if_true]
      · intro p hpi hpj
        unfold diveAt
        by_cases hp : p < 0
        · simp [hp]
        · have h1 : s.i.toNat ≠ p.toNat := by omega
          have h2 : s.j.toNat ≠ p.toNat := by omega
          simp only [hp, if_false, List.getElem?_set, h1, h2]

/-- C14: on a sequence of length `L` the reversal loop swaps exactly at the
pointer pairs `(k, L-1-k)` for `k = 0 .. L/2 - 1`, so it performs `L/2`
swaps; a swap exchanges the records at its two positions and touches no
other; for `L ≤ 1` no swap is performed and the sequence is returned as it
is, and for `L = 0` the right pointer starts at `-1`. -/
theorem reversal_performs_half_length_swaps (dives : List DiveData) :
    swapTrace dives.length { dives := dives, i := 0, j := (dives.length : Int) - 1 }
      = (List.range (dives.length / 2)).map
          (fun (k : Nat) => ((k : Int), (dives.length : Int) - 1 - (k : Int))) ∧
    (swapTrace dives.length
      { dives := dives, i := 0, j := (dives.length : Int) - 1 }).length = dives.length / 2 ∧
    (∀ s s', swapBody s = some s' →
      diveAt s'.dives s.i = diveAt s.dives s.j ∧
      diveAt s'.dives s.j = diveAt s.dives s.i ∧
      (∀ p, p ≠ s.i → p ≠ s.j → diveAt s'.dives p = diveAt s.dives p)) ∧
    (dives.length ≤ 1 →
      swapTrace dives.length { dives := dives, i := 0, j := (dives.length : Int) - 1 } = [] ∧
      reverseDives dives = .done dives) ∧
    (dives = [] →
      ({ dives := dives, i := 0, j := (dives.length : Int) - 1 } : SwapState).j = -1) := by
  have htrace := swapTrace_reverseDives dives
  refine ⟨htrace, ?_, ?_, ?_, ?_⟩
  · rw [htrace]
    simp
  · intro s s' h
    obtain ⟨_, _, h1, h2, h3⟩ := swapBody_effect s s' h
    exact ⟨h1, h2, h3⟩
  · intro hlen
    have hhalf : dives.length / 2 = 0 := by omega
    refine ⟨by rw [htrace, hhalf]; rfl, ?_⟩
    rw [reverseDives_eq_reverse]
    match dives, hlen with
    | [], _ => rfl
    | [a], _ => rfl
  · intro h
    subst h
    rfl

/-- C14, at three records (one swap, of positions 0 and 2) and at one record
(no swap). -/
theorem reversal_performs_half_length_swaps_witness :
    swapTrace 3
      { dives := [sampleDive "1" "A", sampleDive "2" "B", sampleDive "3" "C"], i := 0, j := 2 }
      = [(0, 2)] ∧
    [sampleDive "1" "A"].length ≤ 1 ∧
    reverseDives [sampleDive "1" "A"] = .done [sampleDive "1" "A"] ∧
    swapBody { dives := [sampleDive "1" "A", sampleDive "2" "B", sampleDive "3" "C"],
               i := 0, j := 2 }
      = some { dives := [sampleDive "3" "C", sampleDive "2" "B", sampleDive "1" "A"],
               i := 1, j := 1 } ∧
    diveAt [sampleDive "3" "C", sampleDive "2" "B", sampleDive "1" "A"] 0
      = diveAt [sampleDive "1" "A", sampleDive "2" "B", sampleDive "3" "C"] 2 :=
  ⟨(reversal_performs_half_length_swaps
      [sampleDive "1" "A", sampleDive "2" "B", sampleDive "3" "C"]).1,
    by decide,
    ((reversal_performs_half_length_swaps [sampleDive "1" "A"]).2.2.2.1 (by decide)).2,
    by decide,
    ((reversal_performs_half_length_swaps []).2.2.1
      { dives := [sampleDive "1" "A", sampleDive "2" "B", sampleDive "3" "C"], i := 0, j := 2 }
      { dives := [sampleDive "3" "C", sampleDive "2" "B", sampleDive "1" "A"], i := 1, j := 1 }
      (by decide)).1⟩

/-! ## Extraction: termination -/

/-- A successful iteration moves the cursor by exactly 1 or exactly 23. -/
theorem loopBody_cursor_step (records : List (List String)) (s s' : ScanState)
    (h : loopBody records s = some s') : s'.i = s.i + 1 ∨ s'.i = s.i + 23 := by
  unfold loopBody at h
  split at h
  · contradiction
  · split at h
    · contradiction
    · simp only [Option.some.injEq] at h
      subst h
      exact Or.inr rfl
  · simp only [Option.some.injEq] at h
    subst h
    exact Or.inl rfl

/-- However much fuel is given, the loop executes at most one iteration per
row from the cursor on. -/
theorem scanIterations_le (records : List (List String)) (fuel : Nat) :
    ∀ (s : ScanState), scanIterations records fuel s ≤ records.length - s.i := by
  induction fuel with
  | zero =>
    intro s
    unfold scanIterations
    split <;> simp
  | succ fuel ih =>
    intro s
    rw [scanIterations]
    by_cases hlt : s.i < records.length
    · simp only [hlt, if_true]
      cases hb : loopBody records s with
      | none =>
        simp only []
        omega
      | some s' =>
        simp only []
        have hcur := loopBody_cursor_lt records s s' hb
        have := ih s'
        omega
    · simp [hlt]

/-- C15: for every row sequence, the empty one included: every successful
iteration moves the cursor forward, by 1 or by 23; the loop executes at most
as many iterations as there are rows, whatever fuel it is given; with one
unit of fuel per row the scan never stops for lack of fuel, from row 0 and
from any other cursor, so the run ends in a record sequence or in a panic,
and more fuel gives the same result; and from a cursor at or past the number
of rows the loop stops at once with the records it has. -/
theorem scan_terminates (records : List (List String)) :
    (∀ s s' : ScanState, loopBody records s = some s' →
      (s'.i = s.i + 1 ∨ s'.i = s.i + 23) ∧ s.i < s'.i) ∧
    (∀ fuel, scanIterations records fuel { i := 0, dives := [] } ≤ records.length) ∧
    (∀ fuel (t : ScanState), scanIterations records fuel t ≤ records.length - t.i) ∧
    extract records ≠ .outOfFuel ∧
    (extract records = .panicked ∨ ∃ dives, extract records = .done dives) ∧
    (∀ fuel (t : ScanState), records.length - t.i ≤ fuel →
      extractLoop records fuel t ≠ .outOfFuel) ∧
    (∀ fuel, records.length ≤ fuel →
      extractLoop records fuel { i := 0, dives := [] } = extract records) ∧
    (∀ fuel (t : ScanState), records.length ≤ t.i →
      extractLoop records fuel t = .done t.dives ∧ scanIterations records fuel t = 0) := by
  have hne : extract records ≠ .outOfFuel :=
    extractLoop_ne_outOfFuel records records.length { i := 0, dives := [] } (by simp)
  refine ⟨?_, ?_, ?_, hne, ?_, ?_, ?_, ?_⟩
  · intro s s' hb
    exact ⟨loopBody_cursor_step records s s' hb, loopBody_cursor_lt records s s' hb⟩
  · intro fuel
    simpa using scanIterations_le records fuel { i := 0, dives := [] }
  · intro fuel t
    exact scanIterations_le records fuel t
  · cases hex : extract records with
    | done dives => exact Or.inr ⟨dives, rfl⟩
    | panicked => exact Or.inl rfl
    | outOfFuel => exact absurd hex hne
  · intro fuel t ht
    exact extractLoop_ne_outOfFuel records fuel t ht
  · intro fuel hfuel
    exact extractLoop_fuel_irrel records fuel records.length { i := 0, dives := [] }
      (by simpa using hfuel) (by simp)
  · intro fuel t ht
    have hge : ¬ t.i < records.length := by omega
    cases fuel <;> simp [extractLoop, scanIterations, hge]

/-- C15, at the sample block preceded by a blank row (the first iteration
moves the cursor from 0 to 1, the second from 1 to 24, and the run ends after
two iterations), at the empty input and at a one-cell row, whose only
iteration panics. -/
theorem scan_terminates_witness :
    loopBody (blankRow :: sampleBlock "1" "A") { i := 0, dives := [] }
      = some { i := 1, dives := [] } ∧
    loopBody (blankRow :: sampleBlock "1" "A") { i := 1, dives := [] }
      = some { i := 24, dives := [sampleDive "1" "A"] } ∧
    scanIterations (blankRow :: sampleBlock "1" "A") 1000 { i := 0, dives := [] } = 2 ∧
    (((1 : Nat) = 0 + 1 ∨ (1 : Nat) = 0 + 23) ∧ (0 : Nat) < 1) ∧
    (((24 : Nat) = 1 + 1 ∨ (24 : Nat) = 1 + 23) ∧ (1 : Nat) < 24) ∧
    extract (blankRow :: sampleBlock "1" "A") ≠ .outOfFuel ∧
    extract [] ≠ .outOfFuel ∧
    scanIterations [] 1000 { i := 0, dives := [] } ≤ ([] : List (List String)).length ∧
    extract [["x"]] ≠ .outOfFuel ∧
    scanIterations [["x"]] 1000 { i := 0, dives := [] } ≤ [["x"]].length :=
  have h := scan_terminates (blankRow :: sampleBlock "1" "A")
  ⟨by decide, by decide, by decide,
    h.1 { i := 0, dives := [] } { i := 1, dives := [] } (by decide),
    h.1 { i := 1, dives := [] } { i := 24, dives := [sampleDive "1" "A"] } (by decide),
    h.2.2.2.1,
    (scan_terminates []).2.2.2.1,
    (scan_terminates []).2.1 1000,
    (scan_terminates [["x"]]).2.2.2.1,
    (scan_terminates [["x"]]).2.1 1000⟩

/-! ## Extraction: safety on well-formed input -/

theorem readCoords_bounds : ∀ rc ∈ readCoords, rc.1 ≤ 20 ∧ rc.2 ≤ 12 := by
  decide

theorem cell_isSome_of_wide (records : List (List String))
    (hwide : ∀ row ∈ records, 13 ≤ row.length) (r c : Nat)
    (hr : r < records.length) (hc : c ≤ 12) : (cell records r c).isSome = true := by
  have hrow : records[r]? = some (records[r]) := List.getElem?_eq_getElem hr
  have hlen := hwide (records[r]) (List.getElem_mem hr)
  have hcell : (records[r])[c]? = some ((records[r])[c]) := List.getElem?_eq_getElem (by omega)
  simp [cell, hrow, hcell]

/-- On input whose rows all have 13 cells and whose sentinel rows all have 20
rows after them, no iteration of the scan loop panics. -/
theorem loopBody_isSome_of_wellFormed (records : List (List String))
    (hwide : ∀ row ∈ records, 13 ≤ row.length)
    (hroom : ∀ i row, records[i]? = some row → sentinelRow row = true →
      i + 20 < records.length)
    (s : ScanState) (hlt : s.i < records.length) :
    ∃ s', loopBody records s = some s' := by
  obtain ⟨a, ha⟩ := Option.isSome_iff_exists.mp (cell_isSome_of_wide records hwide s.i 4 hlt (by omega))
  obtain ⟨b, hb⟩ := Option.isSome_iff_exists.mp (cell_isSome_of_wide records hwide s.i 9 hlt (by omega))
  have hsome : ∃ t, isSentinel records s.i = some t := by
    unfold isSentinel
    rw [ha, hb]
    by_cases hsite : a = "Site"
    · exact ⟨decide (b = "Date"), by simp [hsite]⟩
    · exact ⟨false, by simp [hsite]⟩
  obtain ⟨t, ht⟩ := hsome
  cases t with
  | false => exact ⟨{ i := s.i + 1, dives := s.dives }, by simp [loopBody, ht]⟩
  | true =>
    have hrow := isSentinel_eq_sentinelRow records s.i true hlt ht
    have hfar := hroom s.i (records[s.i]) (List.getElem?_eq_getElem hlt) hrow
    obtain ⟨d, hd⟩ := decode_isSome_of_coords records s.i (by
      intro rc hrc
      obtain ⟨h1, h2⟩ := readCoords_bounds rc hrc
      exact cell_isSome_of_wide records hwide (s.i + rc.1) rc.2 (by omega) h2)
    exact ⟨{ i := s.i + 23, dives := s.dives ++ [d] }, by simp [loopBody, ht, hd]⟩

theorem extractLoop_done_of_wellFormed (records : List (List String))
    (hwide : ∀ row ∈ records, 13 ≤ row.length)
    (hroom : ∀ i row, records[i]? = some row → sentinelRow row = true →
      i + 20 < records.length)
    (fuel : Nat) :
    ∀ (s : ScanState), records.length - s.i ≤ fuel →
      ∃ dives, extractLoop records fuel s = .done dives := by
  induction fuel with
  | zero =>
    intro s h
    have hge : ¬ s.i < records.length := by omega
    exact ⟨s.dives, by simp [extractLoop, hge]⟩
  | succ fuel ih =>
    intro s h
    by_cases hlt : s.i < records.length
    · obtain ⟨s', hb⟩ := loopBody_isSome_of_wellFormed records hwide hroom s hlt
      have hcur := loopBody_cursor_lt records s s' hb
      obtain ⟨dives, hd⟩ := ih s' (by omega)
      refine ⟨dives, ?_⟩
      rw [extractLoop]
      simp only [hlt, if_true, hb]
      exact hd
    · exact ⟨s.dives, by simp [extractLoop, hlt]⟩

/-- C16: on input in which every row has at least 13 cells and every row that
satisfies the sentinel condition has at least 20 rows after it, no iteration
of the scan loop makes an out-of-range access (none panics), and extraction
returns a record sequence. -/
theorem well_formed_input_is_safe (records : List (List String))
    (hwide : ∀ row ∈ records, 13 ≤ row.length)
    (hroom : ∀ i row, records[i]? = some row → sentinelRow row = true →
      i + 20 < records.length) :
    (∀ s : ScanState, s.i < records.length → ∃ s', loopBody records s = some s') ∧
    (∃ dives, extract records = .done dives) ∧
    extract records ≠ .panicked := by
  have hdone := extractLoop_done_of_wellFormed records hwide hroom records.length
    { i := 0, dives := [] } (by simp)
  refine ⟨loopBody_isSome_of_wellFormed records hwide hroom, hdone, ?_⟩
  obtain ⟨dives, hd⟩ := hdone
  unfold extract
  rw [hd]
  simp

/-- C16, at the first 21 rows of the sample block: every row has 13 cells and
the only sentinel row, row 0, has 20 rows after it. -/
theorem well_formed_input_is_safe_witness :
    (∀ row ∈ (sampleBlock "1" "A").take 21, 13 ≤ row.length) ∧
    (∀ i row, ((sampleBlock "1" "A").take 21)[i]? = some row → sentinelRow row = true →
      i + 20 < ((sampleBlock "1" "A").take 21).length) ∧
    extract ((sampleBlock "1" "A").take 21) = .done [sampleDive "1" "A"] ∧
    ∃ dives, extract ((sampleBlock "1" "A").take 21) = .done dives :=
  have hwide : ∀ row ∈ (sampleBlock "1" "A").take 21, 13 ≤ row.length := by decide
  have hroom : ∀ i row, ((sampleBlock "1" "A").take 21)[i]? = some row →
      sentinelRow row = true → i + 20 < ((sampleBlock "1" "A").take 21).length := by
    intro i row hrow hsent
    have hlt : i < 21 := by
      by_contra hge
      have hnone : ((sampleBlock "1" "A").take 21)[i]? = none :=
        List.getElem?_eq_none (by simp [sampleBlock]; omega)
      rw [hnone] at hrow
      contradiction
    have hall : ∀ j, j < 21 → ∀ r, ((sampleBlock "1" "A").take 21)[j]? = some r →
        sentinelRow r = true → j = 0 := by decide
    have := hall i hlt row hrow hsent
    subst this
    decide
  ⟨hwide, hroom, by decide,
    (well_formed_input_is_safe ((sampleBlock "1" "A").take 21) hwide hroom).2.1⟩

/-! ## Extraction: when the sentinel test itself panics -/

theorem cell_of_row (records : List (List String)) (i c : Nat) (row : List String)
    (hrow : records[i]? = some row) : cell records i c = row[c]? := by
  simp [cell, hrow]

/-- C17: at a cursor row `row`, the sentinel test panics exactly when the row
has fewer than 5 cells, or has "Site" in cell 4 and fewer than 10 cells; a
row of at least 5 cells whose cell 4 is not "Site" makes the test false and
the iteration a skip by one row, whatever else the row holds and however
long it is (cell 9 is not consulted). -/
theorem sentinel_test_failure (records : List (List String)) (i : Nat) (row : List String)
    (hrow : records[i]? = some row) :
    (isSentinel records i = none ↔
      row.length < 5 ∨ (row[4]? = some "Site" ∧ row.length < 10)) ∧
    (5 ≤ row.length → row[4]? ≠ some "Site" →
      isSentinel records i = some false ∧
      ∀ dives, loopBody records { i := i, dives := dives }
        = some { i := i + 1, dives := dives }) := by
  have h4 := cell_of_row records i 4 row hrow
  have h9 := cell_of_row records i 9 row hrow
  constructor
  · unfold isSentinel
    rw [h4, h9]
    by_cases hlen : row.length < 5
    · have hnone : row[4]? = none := List.getElem?_eq_none (by omega)
      simp [hnone, hlen]
    · have hsome : row[4]? = some (row[4]) := List.getElem?_eq_getElem (by omega)
      rw [hsome]
      by_cases hsite : row[4] = "Site"
      · by_cases hlen10 : row.length < 10
        · have hnone : row[9]? = none := List.getElem?_eq_none (by omega)
          simp [hsite, hnone, hlen10]
        · have hsome9 : row[9]? = some (row[9]) := List.getElem?_eq_getElem (by omega)
          simp [hsite, hsome9, hlen, hlen10]
      · simp [hsite, hlen]
  · intro hlen hne
    have hsome : row[4]? = some (row[4]) := List.getElem?_eq_getElem (by omega)
    have hsite : ¬ row[4] = "Site" := by
      intro h
      exact hne (by rw [hsome, h])
    have hs : isSentinel records i = some false := by
      unfold isSentinel
      rw [h4, hsome]
      simp [hsite]
    exact ⟨hs, fun dives => by simp [loopBody, hs]⟩

/-- C17, at a five-cell row without "Site": the test is false and the row is
skipped; at a four-cell row, and at a nine-cell row with "Site" in cell 4,
the test panics. -/
theorem sentinel_test_failure_witness :
    [["a", "b", "c", "d", "e"]][0]? = some ["a", "b", "c", "d", "e"] ∧
    5 ≤ ["a", "b", "c", "d", "e"].length ∧
    ["a", "b", "c", "d", "e"][4]? ≠ some "Site" ∧
    isSentinel [["a", "b", "c", "d", "e"]] 0 = some false ∧
    isSentinel [["a", "b", "c", "d"]] 0 = none ∧
    isSentinel [["", "", "", "", "Site", "", "", "", ""]] 0 = none :=
  ⟨by decide, by decide, by decide,
    ((sentinel_test_failure [["a", "b", "c", "d", "e"]] 0 ["a", "b", "c", "d", "e"]
      (by decide)).2 (by decide) (by decide)).1,
    (sentinel_test_failure [["a", "b", "c", "d"]] 0 ["a", "b", "c", "d"]
      (by decide)).1.mpr (Or.inl (by decide)),
    (sentinel_test_failure [["", "", "", "", "Site", "", "", "", ""]] 0
      ["", "", "", "", "Site", "", "", "", ""] (by decide)).1.mpr
        (Or.inr ⟨by decide, by decide⟩)⟩

/-! ## Extraction: only the cells at the block coordinates are read -/

/-- Decoding reads the 29 coordinates of the literal and nothing else. -/
theorem decode_congr (A B : List (List String)) (i j : Nat)
    (h : ∀ rc ∈ readCoords, cell A (i + rc.1) rc.2 = cell B (j + rc.1) rc.2) :
    decode A i = decode B j := by
  have h1 := h (0, 1) (by simp [readCoords])
  have h2 := h (1, 4) (by simp [readCoords])
  have h3 := h (1, 9) (by simp [readCoords])
  have h4 := h (1, 12) (by simp [readCoords])
  have h5 := h (4, 4) (by simp [readCoords])
  have h6 := h (4, 11) (by simp [readCoords])
  have h7 := h (5, 4) (by simp [readCoords])
  have h8 := h (5, 11) (by simp [readCoords])
  have h9 := h (6, 4) (by simp [readCoords])
  have h10 := h (6, 11) (by simp [readCoords])
  have h11 := h (7, 4) (by simp [readCoords])
  have h12 := h (7, 11) (by simp [readCoords])
  have h13 := h (8, 4) (by simp [readCoords])
  have h14 := h (8, 11) (by simp [readCoords])
  have h15 := h (9, 4) (by simp [readCoords])
  have h16 := h (9, 11) (by simp [readCoords])
  have h17 := h (10, 4) (by simp [readCoords])
  have h18 := h (10, 11) (by simp [readCoords])
  have h19 := h (11, 4) (by simp [readCoords])
  have h20 := h (12, 4) (by simp [readCoords])
  have h21 := h (13, 4) (by simp [readCoords])
  have h22 := h (13, 11) (by simp [readCoords])
  have h23 := h (14, 4) (by simp [readCoords])
  have h24 := h (14, 11) (by simp [readCoords])
  have h25 := h (17, 1) (by simp [readCoords])
  have h26 := h (17, 11) (by simp [readCoords])
  have h27 := h (18, 11) (by simp [readCoords])
  have h28 := h (19, 11) (by simp [readCoords])
  have h29 := h (20, 11) (by simp [readCoords])
  simp only [Nat.add_zero] at h1
  simp only [decode, h1, h2, h3, h4, h5, h6, h7, h8, h9, h10, h11, h12, h13, h14, h15, h16, h17, h18, h19, h20, h21, h22, h23, h24, h25, h26, h27, h28, h29]

/-- The sentinel test reads cells 4 and 9 of the cursor row and nothing else. -/
theorem isSentinel_congr (A B : List (List String)) (i j : Nat)
    (h4 : cell A i 4 = cell B j 4) (h9 : cell A i 9 = cell B j 9) :
    isSentinel A i = isSentinel B j := by
  simp only [isSentinel, h4, h9]

theorem cell_append_lt (P X : List (List String)) (r c : Nat) (h : r < P.length) :
    cell (P ++ X) r c = cell P r c := by
  simp only [cell, List.getElem?_append_left h]

/-- An iteration that ends at or before row `|pre|` has read rows of `pre` only. -/
theorem loopBody_before_block (pre X Y : List (List String)) (s s' : ScanState)
    (hb : loopBody (pre ++ X) s = some s') (hle : s'.i ≤ pre.length) :
    loopBody (pre ++ Y) s = some s' := by
  have hcur := loopBody_cursor_lt _ s s' hb
  have hstep := loopBody_cursor_step _ s s' hb
  have hlt : s.i < pre.length := by omega
  have hs : isSentinel (pre ++ Y) s.i = isSentinel (pre ++ X) s.i :=
    isSentinel_congr _ _ _ _
      (by rw [cell_append_lt _ _ _ _ hlt, cell_append_lt _ _ _ _ hlt])
      (by rw [cell_append_lt _ _ _ _ hlt, cell_append_lt _ _ _ _ hlt])
  unfold loopBody at hb ⊢
  rw [hs]
  cases hsent : isSentinel (pre ++ X) s.i with
  | none => simp [hsent] at hb
  | some t =>
    cases t with
    | false =>
      simp only [hsent] at hb ⊢
      exact hb
    | true =>
      simp only [hsent] at hb ⊢
      cases hd : decode (pre ++ X) s.i with
      | none => simp [hd] at hb
      | some d =>
        simp only [hd, Option.some.injEq] at hb
        have h23 : s'.i = s.i + 23 := by rw [← hb]
        have hdY : decode (pre ++ Y) s.i = decode (pre ++ X) s.i := by
          apply decode_congr
          intro rc hrc
          have hbound := (readCoords_bounds rc hrc).1
          rw [cell_append_lt _ _ _ _ (by omega), cell_append_lt _ _ _ _ (by omega)]
        rw [hdY, hd]
        simp only [Option.some.injEq]
        exact hb

/-- The way the scan arrives at row `|pre|` does not depend on the rows from
there on. -/
theorem reaches_before_block (pre X Y : List (List String)) (s : ScanState)
    (h : Reaches (pre ++ X) s) (hle : s.i ≤ pre.length) : Reaches (pre ++ Y) s := by
  induction h with
  | start => exact Reaches.start
  | step hr hlt hb ih =>
    rename_i s s'
    have hcur := loopBody_cursor_lt _ s s' hb
    refine Reaches.step (ih (by omega)) ?_ (loopBody_before_block pre X Y s s' hb hle)
    simp only [List.length_append]
    omega

/-- The iteration at the first row of a matched block gives the same result
for two blocks that agree on the block coordinates. -/
theorem loopBody_block_congr (B B' R : List (List String)) (ds : List DiveData)
    (hlen : B.length = 23) (hlen' : B'.length = 23)
    (hagree : ∀ rc ∈ blockCoords, cell B' rc.1 rc.2 = cell B rc.1 rc.2) :
    loopBody (B' ++ R) { i := 0, dives := ds } = loopBody (B ++ R) { i := 0, dives := ds } := by
  have hs : isSentinel (B' ++ R) 0 = isSentinel (B ++ R) 0 := by
    apply isSentinel_congr
    · rw [cell_append_lt _ _ _ _ (by omega), cell_append_lt _ _ _ _ (by omega)]
      exact hagree (0, 4) (by simp [blockCoords])
    · rw [cell_append_lt _ _ _ _ (by omega), cell_append_lt _ _ _ _ (by omega)]
      exact hagree (0, 9) (by simp [blockCoords])
  have hd : decode (B' ++ R) 0 = decode (B ++ R) 0 := by
    apply decode_congr
    intro rc hrc
    have hbound := (readCoords_bounds rc hrc).1
    rw [cell_append_lt _ _ _ _ (by omega), cell_append_lt _ _ _ _ (by omega)]
    simpa using hagree rc (by simp [blockCoords, hrc])
  simp only [loopBody, hs, hd]

/-- From the first row of a matched block on, the loop gives the same result
for two blocks that agree on the block coordinates. -/
theorem extractLoop_block_congr (B B' R : List (List String)) (ds : List DiveData) (m : Nat)
    (hlen : B.length = 23) (hlen' : B'.length = 23)
    (h4 : cell B 0 4 = some "Site") (h9 : cell B 0 9 = some "Date")
    (hagree : ∀ rc ∈ blockCoords, cell B' rc.1 rc.2 = cell B rc.1 rc.2) :
    extractLoop (B' ++ R) (m + 1) { i := 0, dives := ds }
      = extractLoop (B ++ R) (m + 1) { i := 0, dives := ds } := by
  have hbody := loopBody_block_congr B B' R ds hlen hlen' hagree
  have hs : isSentinel (B ++ R) 0 = some true :=
    (isSentinel_eq_some_true_iff _ _).mpr
      ⟨cell_append_of_some _ _ _ _ _ h4, cell_append_of_some _ _ _ _ _ h9⟩
  have hpos : (0 : Nat) < (B ++ R).length := by
    simp only [List.length_append, hlen]
    omega
  have hpos' : (0 : Nat) < (B' ++ R).length := by
    simp only [List.length_append, hlen']
    omega
  rw [extractLoop, extractLoop]
  simp only [hpos, hpos', if_true, hbody]
  cases hd : decode (B ++ R) 0 with
  | none => simp [loopBody, hs, hd]
  | some d =>
    have hb : loopBody (B ++ R) { i := 0, dives := ds }
        = some { i := 23, dives := ds ++ [d] } := by
      simp [loopBody, hs, hd]
    simp only [hb]
    have e1 := extractLoop_append_add B R m 0 (ds ++ [d])
    have e2 := extractLoop_append_add B' R m 0 (ds ++ [d])
    simp only [hlen, hlen', Nat.add_zero] at e1 e2
    rw [e1, e2]

/-- The same for a last block that the input cuts short: nothing follows it
and it has at most 23 rows. -/
theorem extractLoop_last_block_congr (B B' : List (List String)) (ds : List DiveData) (m : Nat)
    (hlen' : B'.length = B.length) (hle : B.length ≤ 23)
    (h4 : cell B 0 4 = some "Site") (h9 : cell B 0 9 = some "Date")
    (hagree : ∀ rc ∈ blockCoords, cell B' rc.1 rc.2 = cell B rc.1 rc.2) :
    extractLoop B' (m + 1) { i := 0, dives := ds }
      = extractLoop B (m + 1) { i := 0, dives := ds } := by
  have hs' : isSentinel B' 0 = isSentinel B 0 :=
    isSentinel_congr _ _ _ _ (hagree (0, 4) (by simp [blockCoords]))
      (hagree (0, 9) (by simp [blockCoords]))
  have hd' : decode B' 0 = decode B 0 := by
    apply decode_congr
    intro rc hrc
    simpa using hagree rc (by simp [blockCoords, hrc])
  have hs : isSentinel B 0 = some true := (isSentinel_eq_some_true_iff _ _).mpr ⟨h4, h9⟩
  have hpos := lt_length_of_cell_eq_some B 0 4 _ h4
  have hpos' : 0 < B'.length := by omega
  rw [extractLoop, extractLoop]
  simp only [hpos, hpos', if_true, loopBody, hs', hd', hs]
  cases hd : decode B 0 with
  | none => rfl
  | some d =>
    simp only []
    have hend : ¬ (0 + 23 < B.length) := by omega
    have hend' : ¬ (0 + 23 < B'.length) := by omega
    cases m <;> simp [extractLoop, hend, hend']

/-- Extraction gives the same result when a matched block is replaced by a
block that agrees with it on the block coordinates.  The block has 23 rows,
or it is the last one and the input ends before its 23 rows are over. -/
theorem extract_block_congr (pre B B' R : List (List String)) (ds : List DiveData)
    (hreach : Reaches (pre ++ (B ++ R)) { i := pre.length, dives := ds })
    (hspan : B.length = 23 ∨ (B.length ≤ 23 ∧ R = []))
    (hlen' : B'.length = B.length)
    (h4 : cell B 0 4 = some "Site") (h9 : cell B 0 9 = some "Date")
    (hagree : ∀ rc ∈ blockCoords, cell B' rc.1 rc.2 = cell B rc.1 rc.2) :
    extract (pre ++ (B' ++ R)) = extract (pre ++ (B ++ R)) := by
  have hreach' : Reaches (pre ++ (B' ++ R)) { i := pre.length, dives := ds } :=
    reaches_before_block pre (B ++ R) (B' ++ R) _ hreach (by simp)
  have hpos := lt_length_of_cell_eq_some B 0 4 _ h4
  have hfuel : ∀ C : List (List String), C.length = B.length →
      (pre ++ (C ++ R)).length - pre.length = (B.length - 1 + R.length) + 1 := by
    intro C hC
    simp only [List.length_append, hC]
    omega
  rw [extract_of_reaches _ _ hreach, extract_of_reaches _ _ hreach']
  simp only [hfuel B rfl, hfuel B' hlen']
  have e1 := extractLoop_append_add pre (B ++ R) (B.length - 1 + R.length + 1) 0 ds
  have e2 := extractLoop_append_add pre (B' ++ R) (B.length - 1 + R.length + 1) 0 ds
  simp only [Nat.add_zero] at e1 e2
  rw [e1, e2]
  rcases hspan with h23 | ⟨hle, hR⟩
  · exact extractLoop_block_congr B B' R ds _ h23 (by omega) h4 h9 hagree
  · subst hR
    simp only [List.append_nil]
    exact extractLoop_last_block_congr B B' ds _ hlen' hle h4 h9 hagree

theorem blockCoords_unread_rows :
    ∀ rc ∈ blockCoords, rc.1 ∉ [2, 3, 15, 16, 21, 22] := by
  decide

theorem cell_of_row_eq (A B : List (List String)) (r c : Nat) (h : A[r]? = B[r]?) :
    cell A r c = cell B r c := by
  simp only [cell, h]

theorem length_setCell (rows : List (List String)) (k c : Nat) (x : String) :
    (setCell rows k c x).length = rows.length := by
  unfold setCell
  split <;> simp

theorem cell_setCell_of_ne (rows : List (List String)) (k c r c' : Nat) (x : String)
    (h : (r, c') ≠ (k, c)) : cell (setCell rows k c x) r c' = cell rows r c' := by
  unfold setCell
  split
  · rfl
  · rename_i row hrow
    unfold cell
    by_cases hkr : k = r
    · subst hkr
      have hklt : k < rows.length := by
        by_contra hge
        rw [List.getElem?_eq_none (by omega)] at hrow
        contradiction
      have hc : c ≠ c' := by
        intro hcc
        exact h (by rw [hcc])
      simp [List.getElem?_set, hklt, hrow, hc]
    · simp [List.getElem?_set, hkr]

/-- C18: let the scan arrive at the first row of a matched block `B`, with
rows `pre` before it and rows `R` after it; `B` has 23 rows, or it is the
last block and the input ends before its 23 rows are over.  Then extraction gives
the same result (the same record sequence when it succeeds) for every block
that agrees with `B` on the cells at the block coordinates; in particular
when the rows at offsets 2, 3, 15, 16, 21 and 22 are replaced by arbitrary
rows, sentinel rows included, and when the cell at any coordinate outside the
coordinate map is changed. -/
theorem extraction_reads_only_block_coords (pre B R : List (List String))
    (ds : List DiveData)
    (hreach : Reaches (pre ++ (B ++ R)) { i := pre.length, dives := ds })
    (hspan : B.length = 23 ∨ (B.length ≤ 23 ∧ R = []))
    (h4 : cell B 0 4 = some "Site") (h9 : cell B 0 9 = some "Date") :
    (∀ B' : List (List String), B'.length = B.length →
      (∀ rc ∈ blockCoords, cell B' rc.1 rc.2 = cell B rc.1 rc.2) →
      extract (pre ++ (B' ++ R)) = extract (pre ++ (B ++ R))) ∧
    (∀ B' : List (List String), B'.length = B.length →
      (∀ k, k ∉ [2, 3, 15, 16, 21, 22] → B'[k]? = B[k]?) →
      extract (pre ++ (B' ++ R)) = extract (pre ++ (B ++ R))) ∧
    (∀ k c x, (k, c) ∉ blockCoords →
      extract (pre ++ (setCell B k c x ++ R)) = extract (pre ++ (B ++ R))) ∧
    (∀ (B' : List (List String)) (dives : List DiveData), B'.length = B.length →
      (∀ rc ∈ blockCoords, cell B' rc.1 rc.2 = cell B rc.1 rc.2) →
      extract (pre ++ (B ++ R)) = .done dives → extract (pre ++ (B' ++ R)) = .done dives) := by
  have hgen : ∀ B' : List (List String), B'.length = B.length →
      (∀ rc ∈ blockCoords, cell B' rc.1 rc.2 = cell B rc.1 rc.2) →
      extract (pre ++ (B' ++ R)) = extract (pre ++ (B ++ R)) := fun B' hlen' hagree =>
    extract_block_congr pre B B' R ds hreach hspan hlen' h4 h9 hagree
  refine ⟨hgen, ?_, ?_, ?_⟩
  · intro B' hlen' hrows
    apply hgen B' hlen'
    intro rc hrc
    exact cell_of_row_eq B' B rc.1 rc.2 (hrows rc.1 (blockCoords_unread_rows rc hrc))
  · intro k c x hkc
    apply hgen (setCell B k c x) (length_setCell B k c x)
    intro rc hrc
    apply cell_setCell_of_ne
    intro heq
    apply hkc
    have : rc = (k, c) := by
      rw [← heq]
    rw [← this]
    exact hrc
  · intro B' dives hlen' hagree hdone
    rw [hgen B' hlen' hagree, hdone]

/-- C18, at a blank row, the sample block for dive 1 and the sample block for
dive 2: replacing row 2 of the first block by a sentinel row, or changing its
cell at row 4, column 9, leaves the two extracted records as they are. -/
theorem extraction_reads_only_block_coords_witness :
    Reaches ([blankRow] ++ (sampleBlock "1" "A" ++ sampleBlock "2" "B"))
      { i := [blankRow].length, dives := [] } ∧
    (sampleBlock "1" "A").length = 23 ∧
    cell (sampleBlock "1" "A") 0 4 = some "Site" ∧
    cell (sampleBlock "1" "A") 0 9 = some "Date" ∧
    (nestedBlock "1" "A").length = (sampleBlock "1" "A").length ∧
    (∀ k, k ∉ [2, 3, 15, 16, 21, 22] → (nestedBlock "1" "A")[k]? = (sampleBlock "1" "A")[k]?) ∧
    (4, 9) ∉ blockCoords ∧
    extract ([blankRow] ++ (sampleBlock "1" "A" ++ sampleBlock "2" "B"))
      = .done [sampleDive "1" "A", sampleDive "2" "B"] ∧
    extract ([blankRow] ++ (nestedBlock "1" "A" ++ sampleBlock "2" "B"))
      = extract ([blankRow] ++ (sampleBlock "1" "A" ++ sampleBlock "2" "B")) ∧
    extract ([blankRow] ++ (setCell (sampleBlock "1" "A") 4 9 "Site" ++ sampleBlock "2" "B"))
      = extract ([blankRow] ++ (sampleBlock "1" "A" ++ sampleBlock "2" "B")) :=
  have hreach : Reaches ([blankRow] ++ (sampleBlock "1" "A" ++ sampleBlock "2" "B"))
      { i := [blankRow].length, dives := [] } :=
    Reaches.step Reaches.start (by decide) (by decide!)
  have hrows : ∀ k, k ∉ [2, 3, 15, 16, 21, 22] →
      (nestedBlock "1" "A")[k]? = (sampleBlock "1" "A")[k]? := by
    intro k hk
    have hne : (2 : Nat) ≠ k := by
      intro h
      apply hk
      rw [← h]
      decide
    unfold nestedBlock
    rw [List.getElem?_set_ne hne]
  have h := extraction_reads_only_block_coords [blankRow] (sampleBlock "1" "A")
    (sampleBlock "2" "B") [] hreach (Or.inl (by decide)) (by decide) (by decide)
  ⟨hreach, by decide, by decide, by decide, by decide, hrows, by decide, by decide!,
    h.2.1 (nestedBlock "1" "A") (by decide) hrows,
    h.2.2.1 4 9 "Site" (by decide)⟩

end Dlconv
